import Mathlib

/-!
Verification development for the beneuro_data experimental-data organization
package.  The Python modules `data_transfer_helpers.py`, `data_transfer.py`,
`data_validation.py`, `extra_file_handling.py` and `video_renaming.py` are
shallowly embedded: Python strings become `List Char`, filesystem paths become
lists of path components, and the filesystem itself becomes an explicit state
value that every mutating operation threads.  Python exceptions become
`Except` errors carrying the exception class, the message prefix and the
offending path.
-/

namespace Beneuro

/-- Python strings are modelled as lists of characters. -/
abbrev Str := List Char

/-- Filesystem paths are modelled as their list of components. -/
abbrev Path := List Str

/-- File contents are modelled as lists of bytes. -/
abbrev Content := List Nat

/-- Shorthand turning a Lean string literal into the `Str` model. -/
def S (s : String) : Str := s.toList

/-- A Python exception: its class, the fixed message text, and the path the
message reports (empty when the message carries no path). -/
structure PyErr where
  etype : String
  msg : String
  path : Path
deriving DecidableEq, Repr

/-- The filesystem state: an association list from file paths to contents,
plus the list of directories that exist. -/
structure FS where
  files : List (Path × Content)
  dirs : List Path
deriving DecidableEq, Repr

/-- Association-list lookup for files. -/
def lookupFile : List (Path × Content) → Path → Option Content
  | [], _ => none
  | (q, c) :: rest, p => if q = p then some c else lookupFile rest p

/-- Content stored at a path, if a file exists there. -/
def FS.getFile (fs : FS) (p : Path) : Option Content := lookupFile fs.files p

/-- List membership as a boolean, used for directory existence. -/
def memP : List Path → Path → Bool
  | [], _ => false
  | q :: rest, p => if q = p then true else memP rest p

/-- Python `Path.exists()`: true when a file or a directory exists at `p`. -/
def FS.existsPath (fs : FS) (p : Path) : Bool :=
  (fs.getFile p).isSome || memP fs.dirs p

/-- Write (create or overwrite) the file at `p`.  The new binding is put in
front of the association list, shadowing any previous binding for `p`. -/
def FS.setFile (fs : FS) (p : Path) (c : Content) : FS :=
  { fs with files := (p, c) :: fs.files }

/-- Every nonempty prefix of a path: the chain of directories leading to it. -/
def ancestors (p : Path) : List Path :=
  (List.range p.length).map fun k => p.take (k + 1)

/-- Create one directory unless it already exists (`mkdir` with exist_ok). -/
def FS.addDir (fs : FS) (d : Path) : FS :=
  if memP fs.dirs d then fs else { fs with dirs := fs.dirs ++ [d] }

/-- Python `dest_path.parent.mkdir(parents=True, exist_ok=True)`: create the
parent directory of `p` together with all its ancestors. -/
def mkdirParents (fs : FS) (p : Path) : FS :=
  (ancestors p.dropLast).foldl FS.addDir fs

/-- Python `shutil.copy2(sp, dp)`: read the source file and write its content
to the destination, failing when the source is missing or the destination is
an existing directory. -/
def copy2 (fs : FS) (sp dp : Path) : Except PyErr FS :=
  match lookupFile fs.files sp with
  | none => .error ⟨"FileNotFoundError", "No such file or directory: ", sp⟩
  | some c =>
    if memP fs.dirs dp then .error ⟨"IsADirectoryError", "Is a directory: ", dp⟩
    else .ok (fs.setFile dp c)

/-- Python `filecmp.cmp(p, q, shallow=False)`: byte-for-byte comparison of the
two files' contents. -/
def fileCmp (fs : FS) (p q : Path) : Except PyErr Bool :=
  match lookupFile fs.files p with
  | none => .error ⟨"FileNotFoundError", "No such file or directory: ", p⟩
  | some a =>
    match lookupFile fs.files q with
    | none => .error ⟨"FileNotFoundError", "No such file or directory: ", q⟩
    | some b => .ok (decide (a = b))

/-- Branching part of the `_copy_list_of_files` loop body, after the parent
directory has been created: copy, skip, or raise according to the `if_exists`
policy.  The result carries the filesystem after the step and the list of
copies performed; an error carries the filesystem at the moment the exception
is raised. -/
def copyOneAfterMkdir (ifExists : String) (fs : FS) (sp dp : Path) :
    Except (PyErr × FS) (FS × List (Path × Path)) :=
  if fs.existsPath dp = false then
    match copy2 fs sp dp with
    | .error e => .error (e, fs)
    | .ok fs1 => .ok (fs1, [(sp, dp)])
  else if ifExists = "overwrite" then
    match copy2 fs sp dp with
    | .error e => .error (e, fs)
    | .ok fs1 => .ok (fs1, [(sp, dp)])
  else if ifExists = "skip" then
    .ok (fs, [])
  else if ifExists = "error_if_different" then
    match fileCmp fs sp dp with
    | .error e => .error (e, fs)
    | .ok true => .ok (fs, [])
    | .ok false => .error (⟨"FileExistsError", "File already exists and is different: ", dp⟩, fs)
  else if ifExists = "error" then
    .error (⟨"FileExistsError", "File already exists: ", dp⟩, fs)
  else
    .error (⟨"ValueError", "Invalid value for if_exists: " ++ ifExists, []⟩, fs)

/-- Loop body of `_copy_list_of_files` (data_transfer_helpers.py lines 55-82)
for a single (source, destination) pair.  The parent directory is created
first (`dest_path.parent.mkdir(parents=True, exist_ok=True)`), then the
policy branches run. -/
def copyOne (ifExists : String) (fs0 : FS) (sp dp : Path) :
    Except (PyErr × FS) (FS × List (Path × Path)) :=
  copyOneAfterMkdir ifExists (mkdirParents fs0 dp) sp dp

/-- The `for source_path, dest_path in zip(...)` loop of `_copy_list_of_files`
over an explicit pair list, threading the filesystem and accumulating the
copies performed. -/
def copyPairs (ifExists : String) : FS → List (Path × Path) →
    Except (PyErr × FS) (FS × List (Path × Path))
  | fs, [] => .ok (fs, [])
  | fs, (sp, dp) :: rest =>
    match copyOne ifExists fs sp dp with
    | .error e => .error e
    | .ok (fs1, tr1) =>
      match copyPairs ifExists fs1 rest with
      | .error e => .error e
      | .ok (fs2, tr2) => .ok (fs2, tr1 ++ tr2)

/-- Embedding of `_copy_list_of_files` (data_transfer_helpers.py lines 36-82):
the two path lists are zipped and the pairs are processed in order. -/
def copyListOfFiles (sourceFilePaths destFilePaths : List Path)
    (ifExists : String) (fs : FS) :
    Except (PyErr × FS) (FS × List (Path × Path)) :=
  copyPairs ifExists fs (sourceFilePaths.zip destFilePaths)

/-- Loop body of `_check_list_of_files_before_copy` (data_transfer_helpers.py
lines 104-130) for a single pair.  The check only reads the filesystem, so it
returns no new state. -/
def checkOne (ifExists : String) (fs : FS) (sp dp : Path) : Except PyErr Unit :=
  if fs.existsPath dp = false then .ok ()
  else if ifExists = "overwrite" then .ok ()
  else if ifExists = "skip" then .ok ()
  else if ifExists = "error_if_different" then
    match fileCmp fs sp dp with
    | .error e => .error e
    | .ok true => .ok ()
    | .ok false => .error ⟨"FileExistsError", "File already exists and is different: ", dp⟩
  else if ifExists = "error" then
    .error ⟨"FileExistsError", "File already exists: ", dp⟩
  else
    .error ⟨"ValueError", "Invalid value for if_exists: " ++ ifExists, []⟩

/-- The loop of `_check_list_of_files_before_copy` over an explicit pair
list. -/
def checkPairs (ifExists : String) (fs : FS) : List (Path × Path) → Except PyErr Unit
  | [] => .ok ()
  | (sp, dp) :: rest =>
    match checkOne ifExists fs sp dp with
    | .error e => .error e
    | .ok _ => checkPairs ifExists fs rest

/-- Embedding of `_check_list_of_files_before_copy` (data_transfer_helpers.py
lines 85-130): the two path lists are zipped and each pair is checked in
order without writing anything. -/
def checkListOfFiles (sourceFilePaths destFilePaths : List Path)
    (ifExists : String) (fs : FS) : Except PyErr Unit :=
  checkPairs ifExists fs (sourceFilePaths.zip destFilePaths)

/-! Concrete data used to exercise the transfer helpers: a source tree with
two files and a destination that already holds a different copy of the second
file. -/

/-- Source path list for the concrete transfer example. -/
def exSrcs : List Path := [[S "src", S "a"], [S "src", S "b"]]

/-- Destination path list for the concrete transfer example. -/
def exDsts : List Path := [[S "dst", S "a"], [S "dst", S "b"]]

/-- Filesystem for the concrete transfer example: both sources exist, and the
destination of the second pair already exists with different content. -/
def exFs : FS :=
  { files := [([S "src", S "a"], [1]), ([S "src", S "b"], [2]), ([S "dst", S "b"], [3])]
    dirs := [[S "src"], [S "dst"]] }

/-- Filesystem of a fully synced example: every destination already holds a
byte-for-byte identical copy of its source. -/
def exSyncedFs : FS :=
  { files := [([S "src", S "a"], [1]), ([S "src", S "b"], [2]),
              ([S "dst", S "a"], [1]), ([S "dst", S "b"], [2])]
    dirs := [[S "src"], [S "dst"]] }

/-- State growth order on filesystems: every file present in the first stays
present (possibly with new content) and every directory stays present. -/
def FsLe (a b : FS) : Prop :=
  (∀ p, (a.getFile p).isSome = true → (b.getFile p).isSome = true) ∧
  (∀ d, memP a.dirs d = true → memP b.dirs d = true)

/-- The exception raised in the concrete failing transfer example. -/
def exErr : PyErr :=
  ⟨"FileExistsError", "File already exists and is different: ", [S "dst", S "b"]⟩

/-- The filesystem left behind by the concrete failing transfer example: the
first pair's copy has been performed and is not rolled back. -/
def exFsAfter : FS :=
  { files := ([S "dst", S "a"], [1]) :: exFs.files, dirs := exFs.dirs }

/-- A fully synced filesystem in which one byte of one source file has then
been changed (source `src/b` now holds `[9]` while the destination copy still
holds `[2]`). -/
def exChangedFs : FS :=
  { files := [([S "src", S "a"], [1]), ([S "src", S "b"], [9]),
              ([S "dst", S "a"], [1]), ([S "dst", S "b"], [2])]
    dirs := [[S "src"], [S "dst"]] }

/-! ### Naming grammar (data_validation.py, `Session`)

`Session.date_format` is the strftime/strptime format `%Y_%m_%d_%H_%M`.
`datetime.strptime` (CPython `_strptime`) matches `%Y` with exactly four
digits and `%m`, `%d`, `%H`, `%M` with the regexes `1[0-2]|0[1-9]|[1-9]`,
`3[01]|[12]\d|0[1-9]|[1-9]`, `2[0-3]|[0-1]\d|\d` and `[0-5]\d|\d`; since all
field patterns consume only digits and the separators are underscores, the
whole-string match is equivalent to splitting on underscores into exactly
five components and matching each component in full, which is how the parser
below works.  The `datetime` constructor then validates the day against the
month length (with leap years) and requires year at least 1.
`datetime.strftime` on Linux (glibc) renders `%Y` without zero padding and
the other fields zero-padded to two digits. -/

/-- A parsed `%Y_%m_%d_%H_%M` timestamp. -/
structure DateTimeYmdHM where
  year : Nat
  month : Nat
  day : Nat
  hour : Nat
  minute : Nat
deriving DecidableEq, Repr

/-- Split a character list at every occurrence of `sep`. -/
def splitOnChar (sep : Char) : Str → List Str
  | [] => [[]]
  | c :: rest =>
    if c = sep then [] :: splitOnChar sep rest
    else
      match splitOnChar sep rest with
      | [] => [[c]]
      | h :: t => (c :: h) :: t

/-- Decimal value of a digit run. -/
def digitsToNat (s : Str) : Nat :=
  s.foldl (fun n c => 10 * n + (c.toNat - '0'.toNat)) 0

/-- The `%Y` field regex of CPython strptime: exactly four digits. -/
def matchY (s : Str) : Bool :=
  decide (s.length = 4) && s.all Char.isDigit

/-- The `%m` field regex `1[0-2]|0[1-9]|[1-9]`. -/
def matchMonth (s : Str) : Bool :=
  s.all Char.isDigit &&
    ((decide (s.length = 1) && decide (1 ≤ digitsToNat s) && decide (digitsToNat s ≤ 9)) ||
     (decide (s.length = 2) && decide (1 ≤ digitsToNat s) && decide (digitsToNat s ≤ 12)))

/-- The `%d` field regex `3[01]|[12]\d|0[1-9]|[1-9]`. -/
def matchDay (s : Str) : Bool :=
  s.all Char.isDigit &&
    ((decide (s.length = 1) && decide (1 ≤ digitsToNat s) && decide (digitsToNat s ≤ 9)) ||
     (decide (s.length = 2) && decide (1 ≤ digitsToNat s) && decide (digitsToNat s ≤ 31)))

/-- The `%H` field regex `2[0-3]|[0-1]\d|\d`. -/
def matchHour (s : Str) : Bool :=
  s.all Char.isDigit &&
    ((decide (s.length = 1) && decide (digitsToNat s ≤ 9)) ||
     (decide (s.length = 2) && decide (digitsToNat s ≤ 23)))

/-- The `%M` field regex `[0-5]\d|\d`. -/
def matchMinute (s : Str) : Bool :=
  s.all Char.isDigit &&
    ((decide (s.length = 1) && decide (digitsToNat s ≤ 9)) ||
     (decide (s.length = 2) && decide (digitsToNat s ≤ 59)))

/-- Gregorian leap year rule used by `datetime`. -/
def isLeapYear (y : Nat) : Bool :=
  (decide (y % 4 = 0) && decide (y % 100 ≠ 0)) || decide (y % 400 = 0)

/-- Number of days in a month, as validated by the `datetime` constructor. -/
def daysInMonth (y m : Nat) : Nat :=
  if m = 2 then (if isLeapYear y then 29 else 28)
  else if m = 4 ∨ m = 6 ∨ m = 9 ∨ m = 11 then 30
  else 31

/-- Embedding of `datetime.strptime(s, "%Y_%m_%d_%H_%M")`: `none` models the
`ValueError` the Python call raises on no match or an invalid date. -/
def strptimeYmdHM (s : Str) : Option DateTimeYmdHM :=
  match splitOnChar '_' s with
  | [ys, ms, ds, hs, mins] =>
    if matchY ys && matchMonth ms && matchDay ds && matchHour hs && matchMinute mins then
      let y := digitsToNat ys
      let m := digitsToNat ms
      let d := digitsToNat ds
      if 1 ≤ y ∧ d ≤ daysInMonth y m then
        some ⟨y, m, d, digitsToNat hs, digitsToNat mins⟩
      else none
    else none
  | _ => none

/-- Decimal digits of a natural number. -/
def natDigits (n : Nat) : Str := Nat.toDigits 10 n

/-- Zero-pad a number below 100 to two digits. -/
def pad2 (n : Nat) : Str := if n < 10 then '0' :: natDigits n else natDigits n

/-- Embedding of `dt.strftime("%Y_%m_%d_%H_%M")` as rendered by glibc on
Linux: the year unpadded, the other fields zero-padded to two digits. -/
def strftimeYmdHM (dt : DateTimeYmdHM) : Str :=
  natDigits dt.year ++ '_' :: pad2 dt.month ++ '_' :: pad2 dt.day ++
    '_' :: pad2 dt.hour ++ '_' :: pad2 dt.minute

/-- Embedding of `Session._validate_time_format` (data_validation.py lines
293-308): parse the string, re-render it, and reject unless the rendering
reproduces the input exactly. -/
def validateTimeFormat (timeStr : Str) : Except PyErr Unit :=
  match strptimeYmdHM timeStr with
  | none => .error ⟨"ValueError", "does not match expected format %Y_%m_%d_%H_%M", []⟩
  | some dt =>
    if timeStr = strftimeYmdHM dt then .ok ()
    else .error ⟨"ValueError", "does not match expected format (non-canonical)", []⟩

/-- Embedding of `Session._extract_date_str`: everything after the subject
name and the underscore. -/
def extractDateStr (folderName subjectName : Str) : Str :=
  folderName.drop (subjectName.length + 1)

/-- Embedding of `Session.prescreen_folder_name` (data_validation.py lines
270-286): the folder name must start with the subject name, have an
underscore right after it (a name exactly equal to the subject raises
`IndexError` in the source), and end in a canonical timestamp. -/
def prescreenFolderName (folderName subjectName : Str) : Except PyErr Unit :=
  if subjectName.isPrefixOf folderName = false then
    .error ⟨"ValueError", "Folder name has to start with subject name.", []⟩
  else
    match folderName.drop subjectName.length with
    | [] => .error ⟨"IndexError", "string index out of range", []⟩
    | c :: _ =>
      if c = '_' then validateTimeFormat (extractDateStr folderName subjectName)
      else .error ⟨"ValueError", "Folder name has to have an underscore after subject name.", []⟩

/-! ### Ephys recording validation (data_validation.py, `RawEphysRecording`) -/

/-- A probe subfolder of a recording folder: its name and its child files. -/
structure ProbeDir where
  name : Str
  files : List Str
deriving DecidableEq, Repr

/-- A child of a recording folder: a plain file or a probe subfolder. -/
inductive RecChild
  | file (n : Str)
  | dir (d : ProbeDir)
deriving DecidableEq, Repr

/-- Name of a recording folder child. -/
def RecChild.name : RecChild → Str
  | .file n => n
  | .dir d => d.name

/-- A recording folder: its name and its children. -/
structure RecordingDir where
  name : Str
  children : List RecChild
deriving DecidableEq, Repr

/-- The `HIDDEN_FILE_PATTERN` check `re.match(r"^\.", name)`. -/
def isHidden (n : Str) : Bool :=
  match n with
  | '.' :: _ => true
  | _ => false

/-- The `SPIKEGLX_RECORDING_PATTERN` search `_g(\d+)$` followed by
`group(0)[1:]` (`RawEphysRecording._extract_gid`): when the name ends in an
underscore, a `g` and at least one digit, return that `g` plus the digits. -/
def extractGid (name : Str) : Option Str :=
  let revDigits := name.reverse.takeWhile Char.isDigit
  if revDigits.length = 0 then none
  else
    match name.reverse.drop revDigits.length with
    | 'g' :: '_' :: _ => some ('g' :: revDigits.reverse)
    | _ => none

/-- The probe folder pattern `re.match(rf"{expected}_imec\d", filename)`:
`re.match` anchors only at the start, so this is a prefix check. -/
def matchesProbePattern (expected n : Str) : Bool :=
  (expected ++ S "_imec").isPrefixOf n &&
    (match n.drop (expected.length + 5) with
     | d :: _ => d.isDigit
     | [] => false)

/-- Embedding of `RawEphysRecording.validate_probe_folder_names`
(data_validation.py lines 420-439): every non-hidden child must be a
directory whose name matches the probe folder pattern. -/
def validateProbeFolderNames (expected : Str) : List RecChild → Except PyErr Unit
  | [] => .ok ()
  | ch :: rest =>
    if isHidden ch.name then validateProbeFolderNames expected rest
    else
      match ch with
      | .file _ =>
        .error ⟨"ValueError", "Only folders are allowed in the ephys recordings folder", []⟩
      | .dir d =>
        if matchesProbePattern expected d.name then validateProbeFolderNames expected rest
        else .error ⟨"ValueError", "does not match the expected format for probes", []⟩

/-- The exact probe folder name of the spec grammar, `{recording}_imec{d}`,
inverted: the probe index when the name is exactly of that shape. -/
def probeIndexOf (recName n : Str) : Option Char :=
  match n.drop (recName.length + 5) with
  | [d] => if (recName ++ S "_imec").isPrefixOf n && d.isDigit then some d else none
  | _ => none

/-- Modelled from the spec: the four expected probe data files of spec 6,
`{recording}_t0.imec{d}.lf.meta`, `...lf.bin`, `...ap.meta`, `...ap.bin`. -/
def expectedProbeFiles (recName : Str) (d : Char) : List Str :=
  [recName ++ S "_t0.imec" ++ [d] ++ S ".lf.meta",
   recName ++ S "_t0.imec" ++ [d] ++ S ".lf.bin",
   recName ++ S "_t0.imec" ++ [d] ++ S ".ap.meta",
   recName ++ S "_t0.imec" ++ [d] ++ S ".ap.bin"]

/-- Boolean set equality of two filename lists. -/
def setEqStr (a b : List Str) : Bool :=
  (a.all fun x => decide (x ∈ b)) && (b.all fun x => decide (x ∈ a))

/-- Modelled from the spec: the per-probe file-set check performed by
`validate_raw_ephys_data_of_session`, which is missing from src/ (only its
callers and tests are present).  Spec 4.2: for each probe folder, the child
file set must equal exactly the four expected filenames derived from the
probe index — a strict set-equality check. -/
def validateProbeFiles (recName : Str) : List RecChild → Except PyErr Unit
  | [] => .ok ()
  | ch :: rest =>
    match ch with
    | .file _ => validateProbeFiles recName rest
    | .dir d =>
      if isHidden d.name then validateProbeFiles recName rest
      else
        match probeIndexOf recName d.name with
        | none => .error ⟨"ValueError", "probe folder name does not carry a probe index", []⟩
        | some idx =>
          if setEqStr d.files (expectedProbeFiles recName idx) then
            validateProbeFiles recName rest
          else .error ⟨"ValueError", "probe folder contents differ from the four expected files", []⟩

/-- Validation of one raw ephys recording folder: the gid extraction and the
folder-name and probe-folder-name checks of `RawEphysRecording.__init__`
(data_validation.py lines 394-401), followed by the spec-modelled per-probe
file-set check. -/
def validateRawEphysRecording (sessionName : Str) (rec : RecordingDir) : Except PyErr Unit :=
  match extractGid rec.name with
  | none => .error ⟨"AttributeError", "NoneType object has no attribute group", []⟩
  | some gid =>
    if rec.name = sessionName ++ '_' :: gid then
      match validateProbeFolderNames rec.name rec.children with
      | .error e => .error e
      | .ok _ => validateProbeFiles rec.name rec.children
    else .error ⟨"ValueError", "Folder name does not match expected format", []⟩

/-- Concrete probe folder with exactly the four expected data files. -/
def exProbe : ProbeDir :=
  { name := S "M011_2023_04_04_16_00_g0_imec0"
    files := [S "M011_2023_04_04_16_00_g0_t0.imec0.lf.meta",
              S "M011_2023_04_04_16_00_g0_t0.imec0.lf.bin",
              S "M011_2023_04_04_16_00_g0_t0.imec0.ap.meta",
              S "M011_2023_04_04_16_00_g0_t0.imec0.ap.bin"] }

/-- Concrete well-formed recording folder of session `M011_2023_04_04_16_00`. -/
def exRec : RecordingDir :=
  { name := S "M011_2023_04_04_16_00_g0", children := [RecChild.dir exProbe] }

/-! ### Behavioral data validation (data_validation.py, `RawBehavioralData`) -/

/-- Embedding of `os.path.splitext(name)[1]`: the extension starting at the
last dot, empty when there is no dot or when every character before the last
dot is itself a dot (leading dots are part of the root). -/
def extOf (name : Str) : Str :=
  let afterDot := name.reverse.takeWhile fun c => decide (c ≠ '.')
  if afterDot.length = name.length then []
  else
    let dotIndex := name.length - afterDot.length - 1
    if (name.take dotIndex).any (fun c => decide (c ≠ '.')) then name.drop dotIndex
    else []

/-- Embedding of `list_files_with_extension` (data_validation.py lines 16-21)
on an already-listed directory: keep the filenames whose `splitext` extension
equals `ext`. -/
def listFilesWithExtension (filenames : List Str) (ext : Str) : List Str :=
  filenames.filter fun n => decide (extOf n = ext)

/-- Modelled from the spec: the whitelist skip of
`validate_raw_behavioral_data_of_session`, which is missing from src/; the
files counted for an extension are those matching the extension that are not
whitelisted (spec 4.2: "files already in the whitelist ... are skipped from
this count"). -/
def filesWithExtNotWhitelisted (rootFiles whitelist : List Str) (ext : Str) : List Str :=
  (listFilesWithExtension rootFiles ext).filter fun n => decide (n ∉ whitelist)

/-- The per-extension ending patterns of
`RawBehavioralData.pycontrol_ending_pattern_per_extension` combined with the
session-name start anchor of `pycontrol_filename_pattern` (data_validation.py
lines 529-539): `^{session}.*_MotSen\d-(X|Y)\.pca` for `.pca` and
`^{session}.*\.txt` for `.txt`. -/
def matchesPycontrolPattern (sessionName ext name : Str) : Bool :=
  sessionName.isPrefixOf name &&
    (if ext = S ".pca" then
      (S "0123456789").any fun d =>
        [('X' : Char), 'Y'].any fun xy =>
          (S "_MotSen" ++ [d] ++ '-' :: xy :: S ".pca").isSuffixOf name
    else (S ".txt").isSuffixOf name)

/-- Filename pattern loop of `RawBehavioralData._validate_pycontrol_filenames`
(data_validation.py lines 501-517) over one extension's counted files. -/
def checkPycontrolFilenames (sessionName : Str) (ext : Str) : List Str → Except PyErr Unit
  | [] => .ok ()
  | n :: rest =>
    if matchesPycontrolPattern sessionName ext n then
      checkPycontrolFilenames sessionName ext rest
    else .error ⟨"ValueError", "does not match expected pattern for PyControl files", [n]⟩

/-- Modelled from the spec: the behavioral validation of
`validate_raw_behavioral_data_of_session` (missing from src/), restricted to
the session root: every counted `.pca` and `.txt` file must match its
session-name-anchored pattern, files in the whitelist are skipped from the
counts, and the remaining counts must equal the configured expectations of
`RawBehavioralData.expected_number_of_pycontrol_files_per_extension`
(two for `.pca`, one for `.txt`); a wrong count raises `WrongNumberOfFilesError` as
in the package tests. -/
def validateBehavioralFileCounts (sessionName : Str) (whitelist rootFiles : List Str) :
    Except PyErr Unit :=
  match checkPycontrolFilenames sessionName (S ".pca")
      (filesWithExtNotWhitelisted rootFiles whitelist (S ".pca")) with
  | .error e => .error e
  | .ok _ =>
    match checkPycontrolFilenames sessionName (S ".txt")
        (filesWithExtNotWhitelisted rootFiles whitelist (S ".txt")) with
    | .error e => .error e
    | .ok _ =>
      if (filesWithExtNotWhitelisted rootFiles whitelist (S ".pca")).length ≠ 2 then
        .error ⟨"WrongNumberOfFilesError", "Expected 2 files with extension .pca", []⟩
      else if (filesWithExtNotWhitelisted rootFiles whitelist (S ".txt")).length ≠ 1 then
        .error ⟨"WrongNumberOfFilesError", "Expected 1 files with extension .txt", []⟩
      else .ok ()

/-! ### Extra file handling (extra_file_handling.py) -/

/-- Last path component (the filename), empty for the empty path. -/
def nameOf (p : Path) : Str := p.getLastD []

/-- Whether `p` lies strictly under the directory `root`. -/
def isUnderDir (root p : Path) : Bool :=
  root.isPrefixOf p && decide (root.length < p.length)

/-- The paths of all files of the filesystem, in listing order. -/
def filePaths (fs : FS) : List Path := fs.files.map Prod.fst

/-- No path is both a file and a directory (true of every real filesystem,
where a path has a single kind). -/
def WFfiles (fs : FS) : Prop := ∀ pc ∈ fs.files, memP fs.dirs pc.1 = false

instance (fs : FS) : Decidable (WFfiles fs) := by
  unfold WFfiles
  infer_instance

/-- Embedding of `_find_whitelisted_files_in_root` (extra_file_handling.py
lines 4-35): for each whitelisted filename, collect the bare root path and
the session-name-prefixed root path when they exist. -/
def findWhitelistedFilesInRoot (fs : FS) (sessionPath : Path) :
    List Str → List Path
  | [] => []
  | filename :: rest =>
    (if fs.existsPath (sessionPath ++ [filename]) then [sessionPath ++ [filename]] else []) ++
    (if fs.existsPath (sessionPath ++ [nameOf sessionPath ++ '_' :: filename]) then
      [sessionPath ++ [nameOf sessionPath ++ '_' :: filename]] else []) ++
    findWhitelistedFilesInRoot fs sessionPath rest

/-- Embedding of `_find_extra_files_with_extension` (extra_file_handling.py
lines 38-54): every file under the session folder, except at the root level,
whose name ends with the extension. -/
def findExtraFilesWithExtension (fs : FS) (sessionPath : Path) (ext : Str) : List Path :=
  (filePaths fs).filter fun p =>
    isUnderDir sessionPath p && decide (p.dropLast ≠ sessionPath) &&
      ext.isSuffixOf (nameOf p)

/-- Python `Path.rename` restricted to files: move the binding to the new
path (directory renames do not occur in the flows modelled here). -/
def renameFile (fs : FS) (old new : Path) : Except PyErr FS :=
  match lookupFile fs.files old with
  | none => .error ⟨"FileNotFoundError", "No such file or directory: ", old⟩
  | some c =>
    .ok { fs with files := (new, c) :: fs.files.filter fun qc => decide (qc.1 ≠ old) }

/-- The prefixed target path `file_path.with_name(session_name + "_" + name)`
of `_rename_files_to_start_with_session_name`. -/
def prefixedTarget (sessionName : Str) (p : Path) : Path :=
  p.dropLast ++ [sessionName ++ '_' :: nameOf p]

/-- Embedding of `_rename_files_to_start_with_session_name`
(extra_file_handling.py lines 83-113): walk the file list; skip files whose
name already starts with the session name; abort with `FileExistsError` when
the prefixed target exists; otherwise rename and continue.  The result
carries the renames performed; an error carries the filesystem at the moment
the exception is raised. -/
def renameFilesToStartWithSessionName (sessionName : Str) :
    FS → List Path → Except (PyErr × FS) (FS × List (Path × Path))
  | fs, [] => .ok (fs, [])
  | fs, p :: rest =>
    if sessionName.isPrefixOf (nameOf p) then
      renameFilesToStartWithSessionName sessionName fs rest
    else
      if fs.existsPath (prefixedTarget sessionName p) then
        .error (⟨"FileExistsError", "Aborting renaming. Target already exists: ",
          prefixedTarget sessionName p⟩, fs)
      else
        match renameFile fs p (prefixedTarget sessionName p) with
        | .error e => .error (e, fs)
        | .ok fs1 =>
          match renameFilesToStartWithSessionName sessionName fs1 rest with
          | .error e => .error e
          | .ok (fs2, tr) => .ok (fs2, (p, prefixedTarget sessionName p) :: tr)

/-- Embedding of `_rename_whitelisted_files_in_root` (extra_file_handling.py
lines 116-141). -/
def renameWhitelistedFilesInRoot (fs : FS) (sessionPath : Path)
    (whitelist : List Str) : Except (PyErr × FS) (FS × List (Path × Path)) :=
  renameFilesToStartWithSessionName (nameOf sessionPath) fs
    (findWhitelistedFilesInRoot fs sessionPath whitelist)

/-- Embedding of `_rename_extra_files_with_extension` (extra_file_handling.py
lines 144-165). -/
def renameExtraFilesWithExtension (fs : FS) (sessionPath : Path) (ext : Str) :
    Except (PyErr × FS) (FS × List (Path × Path)) :=
  renameFilesToStartWithSessionName (nameOf sessionPath) fs
    (findExtraFilesWithExtension fs sessionPath ext)

/-- The `for extension in extensions_to_rename_and_upload` loop of
`rename_extra_files_in_session`. -/
def renameExtraLoop (sessionPath : Path) :
    FS → List Str → Except (PyErr × FS) (FS × List (Path × Path))
  | fs, [] => .ok (fs, [])
  | fs, ext :: rest =>
    match renameExtraFilesWithExtension fs sessionPath ext with
    | .error e => .error e
    | .ok (fs1, tr1) =>
      match renameExtraLoop sessionPath fs1 rest with
      | .error e => .error e
      | .ok (fs2, tr2) => .ok (fs2, tr1 ++ tr2)

/-- Embedding of `rename_extra_files_in_session` (extra_file_handling.py
lines 168-198): rename the whitelisted root files, then the extension-matched
non-root files, extension by extension. -/
def renameExtraFilesInSession (fs : FS) (sessionPath : Path)
    (whitelist : List Str) (extensions : List Str) :
    Except (PyErr × FS) (FS × List (Path × Path)) :=
  match renameWhitelistedFilesInRoot fs sessionPath whitelist with
  | .error e => .error e
  | .ok (fs1, tr1) =>
    match renameExtraLoop sessionPath fs1 extensions with
    | .error e => .error e
    | .ok (fs2, tr2) => .ok (fs2, tr1 ++ tr2)

/-- Filesystem of the concrete aborted extra-file rename example. -/
def exRenFs : FS :=
  { files := [([S "ses", S "u.txt"], [1]), ([S "ses", S "v.txt"], [2]),
              ([S "ses", S "ses_v.txt"], [3])]
    dirs := [[S "ses"]] }

/-- State of the aborted example at the exception: the first file has already
been renamed and stays renamed. -/
def exRenFsAfter : FS :=
  { files := [([S "ses", S "ses_u.txt"], [1]), ([S "ses", S "v.txt"], [2]),
              ([S "ses", S "ses_v.txt"], [3])]
    dirs := [[S "ses"]] }

/-- The exception of the concrete aborted extra-file rename example. -/
def exRenErr : PyErr :=
  ⟨"FileExistsError", "Aborting renaming. Target already exists: ", [S "ses", S "ses_v.txt"]⟩

/-! ### Video validation and renaming (video_renaming.py) -/

/-- The expected video folder path `session_path / (session_name + "_cameras")`. -/
def expectedVideoFolderPath (sp : Path) : Path := sp ++ [nameOf sp ++ S "_cameras"]

/-- The expected video filename start `f"{session_name}_camera_"`. -/
def expectedVideoFilenameStart (sp : Path) : Str := nameOf sp ++ S "_camera_"

/-- Video files anywhere under the session folder. -/
def aviFilesUnder (fs : FS) (sp : Path) : List Path :=
  (filePaths fs).filter fun p => isUnderDir sp p && (S ".avi").isSuffixOf (nameOf p)

/-- Video files under the session folder that are not direct children of the
expected video folder. -/
def strayAvis (fs : FS) (sp : Path) : List Path :=
  (aviFilesUnder fs sp).filter fun p => decide (p.dropLast ≠ expectedVideoFolderPath sp)

/-- Sidecar `metadata.csv` files under the session folder outside the
expected video folder. -/
def strayMetadata (fs : FS) (sp : Path) : List Path :=
  (filePaths fs).filter fun p =>
    isUnderDir sp p && decide (nameOf p = S "metadata.csv") &&
      decide (p.dropLast ≠ expectedVideoFolderPath sp)

/-- Video files that are direct children of the expected video folder. -/
def aviChildren (fs : FS) (sp : Path) : List Path :=
  (filePaths fs).filter fun p =>
    decide (p.dropLast = expectedVideoFolderPath sp) && (S ".avi").isSuffixOf (nameOf p)

/-- Video children whose name does not start with the expected start. -/
def badNamedAvis (fs : FS) (sp : Path) : List Path :=
  (aviChildren fs sp).filter fun p =>
    !(expectedVideoFilenameStart sp).isPrefixOf (nameOf p)

/-- Non-video entries of the expected video folder other than the sidecar:
child files that are neither videos nor `metadata.csv`, and child
directories. -/
def otherVideoFolderEntries (fs : FS) (sp : Path) : List Path :=
  ((filePaths fs).filter fun p =>
    decide (p.dropLast = expectedVideoFolderPath sp) &&
      !(S ".avi").isSuffixOf (nameOf p) && decide (nameOf p ≠ S "metadata.csv")) ++
  (fs.dirs.filter fun p => decide (p.dropLast = expectedVideoFolderPath sp))

/-- Message of the stray-video error; the rename remediation dispatches on
the substring "file in unexpected location" of the Python message
`f"Found .avi file in unexpected location {...}"`. -/
def msgUnexpectedLocation : String := "Found .avi file in unexpected location"

/-- Message of the stray-sidecar error; it also contains the substring
"file in unexpected location". -/
def msgMetadataUnexpected : String := "Found metadata.csv file in unexpected location"

/-- Message of the wrong-filename error; the rename remediation dispatches on
the substring "Video filename does not start with". -/
def msgWrongFilename : String := "Video filename does not start with expected start"

/-- The Python remediation tests `"file in unexpected location" in str(e)`;
exactly these two validator messages contain that substring. -/
def msgHasUnexpectedLocation (m : String) : Bool :=
  decide (m = msgUnexpectedLocation) || decide (m = msgMetadataUnexpected)

/-- Modelled from the spec: `validate_raw_videos_of_session`, which is
missing from src/ (only its callers and tests are present).  Spec 4.2: the
video folder is optional; a tree-wide scan rejects stray video or sidecar
files outside the one folder ("file in unexpected location", the error the
renamer repairs); if the folder is present it must hold at least one video
file, every video filename must start with `{session}_camera_`
("Video filename does not start with", the other repairable error), and after
removing video files exactly the sidecar must remain.  Returns the video
manifest. -/
def validateRawVideosOfSession (fs : FS) (sp : Path) : Except PyErr (List Path) :=
  if strayAvis fs sp ≠ [] then .error ⟨"ValueError", msgUnexpectedLocation, []⟩
  else if strayMetadata fs sp ≠ [] then .error ⟨"ValueError", msgMetadataUnexpected, []⟩
  else if fs.existsPath (expectedVideoFolderPath sp) = false then .ok []
  else if aviChildren fs sp = [] then
    .error ⟨"FileNotFoundError", "No video files found in video folder", []⟩
  else if badNamedAvis fs sp ≠ [] then .error ⟨"ValueError", msgWrongFilename, []⟩
  else if (fs.getFile (expectedVideoFolderPath sp ++ [S "metadata.csv"])).isSome = false then
    .error ⟨"FileNotFoundError", "Could not find metadata.csv in video folder", []⟩
  else if otherVideoFolderEntries fs sp ≠ [] then
    .error ⟨"ValueError", "Found unexpected file in video folder", []⟩
  else .ok (aviChildren fs sp ++ [expectedVideoFolderPath sp ++ [S "metadata.csv"]])

/-- The distinct parent folders of all video files under the session
(`set(video_file_path.parent for ...)`). -/
def foundVideoFolders (fs : FS) (sp : Path) : List Path :=
  ((aviFilesUnder fs sp).map fun p => p.dropLast).eraseDups

/-- Move each listed file into `dest`, keeping its filename
(`video_file_path.rename(dest / video_file_path.name)`). -/
def moveAllTo (dest : Path) : FS → List Path →
    Except (PyErr × FS) (FS × List (Path × Path))
  | fs, [] => .ok (fs, [])
  | fs, p :: rest =>
    match renameFile fs p (dest ++ [nameOf p]) with
    | .error e => .error (e, fs)
    | .ok fs1 =>
      match moveAllTo dest fs1 rest with
      | .error e => .error e
      | .ok (fs2, tr) => .ok (fs2, (p, dest ++ [nameOf p]) :: tr)

/-- Replace the directory prefix `old` by `new` in a path. -/
def replacePrefix (old new p : Path) : Path :=
  if old.isPrefixOf p then new ++ p.drop old.length else p

/-- Python `found_video_folder.rename(expected_video_folder_path)`: move the
whole directory tree. -/
def renameDirTree (fs : FS) (old new : Path) : FS :=
  { files := fs.files.map fun qc => (replacePrefix old new qc.1, qc.2)
    dirs := fs.dirs.map (replacePrefix old new) }

/-- Python `int(stem.split("_")[-1])` on a digit run; `none` models the
`ValueError` of a non-numeric token. -/
def parseCameraId (name : Str) : Option Nat :=
  let stem := name.take (name.length - (extOf name).length)
  match (splitOnChar '_' stem).getLast? with
  | none => none
  | some tok => if tok ≠ [] ∧ tok.all Char.isDigit then some (digitsToNat tok) else none

/-- The wrong-filenames repair loop of `rename_raw_videos_of_session`
(video_renaming.py lines 106-118): rename every listed video file in place to
`{session}_camera_{id}{ext}`, aborting when a target exists. -/
def renameVideosInFolder (sp : Path) : FS → List Path →
    Except (PyErr × FS) (FS × List (Path × Path))
  | fs, [] => .ok (fs, [])
  | fs, p :: rest =>
    match parseCameraId (nameOf p) with
    | none => .error (⟨"ValueError", "invalid literal for int with base 10", []⟩, fs)
    | some cid =>
      if fs.existsPath
          (p.dropLast ++ [expectedVideoFilenameStart sp ++ natDigits cid ++ S ".avi"]) then
        .error (⟨"FileExistsError", "Aborting renaming. Target already exists: ",
          p.dropLast ++ [expectedVideoFilenameStart sp ++ natDigits cid ++ S ".avi"]⟩, fs)
      else
        match renameFile fs p
            (p.dropLast ++ [expectedVideoFilenameStart sp ++ natDigits cid ++ S ".avi"]) with
        | .error e => .error (e, fs)
        | .ok fs1 =>
          match renameVideosInFolder sp fs1 rest with
          | .error e => .error e
          | .ok (fs2, tr) =>
            .ok (fs2, (p, p.dropLast ++
              [expectedVideoFilenameStart sp ++ natDigits cid ++ S ".avi"]) :: tr)

/-- Embedding of `rename_raw_videos_of_session` (video_renaming.py lines
11-134), with a fuel bound standing for Python's recursion limit; the
reachable recursion depth is at most two.  The session path is first checked
against the naming grammar (`validate_session_path`, missing from src/,
modelled as the folder-name prescreen); then the video validation runs, its
repairable errors are dispatched on their message, and all other exceptions
propagate. -/
def renameRawVideosAux (subjectName : Str) (sp : Path) : Nat → FS →
    Except (PyErr × FS) (FS × List (Path × Path))
  | 0, fs => .error (⟨"RecursionError", "maximum recursion depth exceeded", []⟩, fs)
  | fuel + 1, fs =>
    match prescreenFolderName (nameOf sp) subjectName with
    | .error e => .error (e, fs)
    | .ok _ =>
      match validateRawVideosOfSession fs sp with
      | .ok _ => .ok (fs, [])
      | .error e =>
        if msgHasUnexpectedLocation e.msg then
          match foundVideoFolders fs sp with
          | [found] =>
            if fs.existsPath (expectedVideoFolderPath sp) then
              .error (⟨"FileExistsError",
                "Aborting renaming. Found and expected video folders both exist: ",
                expectedVideoFolderPath sp⟩, fs)
            else if found = sp then
              match moveAllTo (expectedVideoFolderPath sp)
                  (fs.addDir (expectedVideoFolderPath sp)) (aviFilesUnder fs sp) with
              | .error e2 => .error e2
              | .ok (fs1, tr1) =>
                if (fs1.getFile (sp ++ [S "metadata.csv"])).isSome = false then
                  .error (⟨"AssertionError", "assert metadata_path.exists()", []⟩, fs1)
                else
                  match renameFile fs1 (sp ++ [S "metadata.csv"])
                      (expectedVideoFolderPath sp ++ [S "metadata.csv"]) with
                  | .error e2 => .error (e2, fs1)
                  | .ok fs2 =>
                    match renameRawVideosAux subjectName sp fuel fs2 with
                    | .error e2 => .error e2
                    | .ok (fs3, tr3) =>
                      .ok (fs3, tr1 ++
                        [(sp ++ [S "metadata.csv"],
                          expectedVideoFolderPath sp ++ [S "metadata.csv"])] ++ tr3)
            else
              match renameRawVideosAux subjectName sp fuel
                  (renameDirTree fs found (expectedVideoFolderPath sp)) with
              | .error e2 => .error e2
              | .ok (fs3, tr3) =>
                .ok (fs3, (found, expectedVideoFolderPath sp) :: tr3)
          | _ => .error (⟨"AssertionError", "assert len(found_video_folders) == 1", []⟩, fs)
        else if e.msg = msgWrongFilename then
          renameVideosInFolder sp fs (aviChildren fs sp)
        else .error (e, fs)

/-- Entry point of the video renaming with the Python recursion limit as
fuel. -/
def renameRawVideosOfSession (subjectName : Str) (fs : FS) (sp : Path) :
    Except (PyErr × FS) (FS × List (Path × Path)) :=
  renameRawVideosAux subjectName sp 1000 fs

/-- Session path of the concrete idempotence example. -/
def exIdSp : Path := [S "M011_2023_04_04_16_00"]

/-- Camera folder name of the concrete idempotence example. -/
def exIdCamDir : Str := S "M011_2023_04_04_16_00_cameras"

/-- An already-canonical video tree: one correctly named video plus the
sidecar in the expected camera folder. -/
def exIdVideoFs : FS :=
  { files := [(exIdSp ++ [exIdCamDir, S "M011_2023_04_04_16_00_camera_0.avi"], [0]),
              (exIdSp ++ [exIdCamDir, S "metadata.csv"], [1])]
    dirs := [exIdSp, exIdSp ++ [exIdCamDir]] }

/-- A session tree with one whitelisted extra file at the root. -/
def exIdExtraFs : FS :=
  { files := [(exIdSp ++ [S "comment.txt"], [7])]
    dirs := [exIdSp] }

/-- The tree after the extra-file pass: the root file carries the
session-name prefix. -/
def exIdExtraFsAfter : FS :=
  { files := [(exIdSp ++ [S "M011_2023_04_04_16_00_comment.txt"], [7])]
    dirs := [exIdSp] }

/-! ### Upload orchestration (data_transfer.py) -/

/-- Embedding of `_source_to_dest` (data_transfer_helpers.py lines 7-33) on a
single path: `dest_root / source_path.relative_to(source_root)`;
`relative_to` raises `ValueError` when the path is not below the root. -/
def sourceToDest (p sourceRoot destRoot : Path) : Except PyErr Path :=
  if sourceRoot.isPrefixOf p then .ok (destRoot ++ p.drop sourceRoot.length)
  else .error ⟨"ValueError", "is not in the subpath of ", p⟩

/-- `_source_to_dest` on a list of paths (the list comprehension branch). -/
def sourceToDestList (sourceRoot destRoot : Path) : List Path → Except PyErr (List Path)
  | [] => .ok []
  | p :: rest =>
    match sourceToDest p sourceRoot destRoot with
    | .error e => .error e
    | .ok d =>
      match sourceToDestList sourceRoot destRoot rest with
      | .error e => .error e
      | .ok ds => .ok (d :: ds)

/-- Embedding of `_validate_session_is_raw_and_in_root`
(data_transfer_helpers.py lines 133-147): the session must live below the
base path and have a `raw` component. -/
def validateSessionIsRawAndInRoot (sp basePath : Path) : Except PyErr Unit :=
  if basePath.isPrefixOf sp = false then
    .error ⟨"ValueError", "Session path is not a subdirectory of the local root: ", sp⟩
  else if decide ((S "raw") ∈ sp) = false then
    .error ⟨"ValueError",
      "Trying to upload a raw session, but the session path does not contain raw: ", sp⟩
  else .ok ()

/-- The shape shared by the per-kind validators that data_transfer.py calls
(`validate_raw_*_of_session`): read the filesystem at a session path and
return the list of data files, or raise. -/
def Validator : Type := FS → Path → Except PyErr (List Path)

/-- Lexicographic order on strings by character code, as Python compares the
string forms of paths. -/
def strLtB : Str → Str → Bool
  | [], [] => false
  | [], _ :: _ => true
  | _ :: _, [] => false
  | a :: as, b :: bs => if a = b then strLtB as bs else decide (a < b)

/-- Lexicographic order on paths by component. -/
def pathLeB : Path → Path → Bool
  | [], _ => true
  | _ :: _, [] => false
  | a :: as, b :: bs => if a = b then pathLeB as bs else strLtB a b

/-- Sorted insertion for `sortPaths`. -/
def insertPath (p : Path) : List Path → List Path
  | [] => [p]
  | q :: rest => if pathLeB p q then p :: q :: rest else q :: insertPath p rest

/-- Python `sorted` on a list of paths. -/
def sortPaths : List Path → List Path
  | [] => []
  | p :: rest => insertPath p (sortPaths rest)

/-- Common shape of `_prepare_copying_raw_behavioral_data`,
`_prepare_copying_raw_ephys_data` and `_prepare_copying_raw_videos`
(data_transfer.py lines 510-611): validate the source session, map the
returned file list to the destination, then run the read-only preflight
check. -/
def prepareCopying (validator : Validator) (fs : FS)
    (sourceSessionPath sourceBase destBase : Path) (ifExists : String) :
    Except PyErr (List Path × List Path) :=
  match validator fs sourceSessionPath with
  | .error e => .error e
  | .ok srcFiles =>
    match sourceToDestList sourceBase destBase srcFiles with
    | .error e => .error e
    | .ok destFiles =>
      match checkListOfFiles srcFiles destFiles ifExists fs with
      | .error e => .error e
      | .ok _ => .ok (srcFiles, destFiles)

/-- Embedding of `upload_raw_behavioral_data` (data_transfer.py lines
144-202): root check, prepare, copy, re-validate the destination, compare the
sorted found paths against the sorted planned paths and raise `RuntimeError`
on mismatch. -/
def uploadRawBehavioralData (validator : Validator) (fs : FS)
    (sp localRoot remoteRoot : Path) : Except (PyErr × FS) (FS × List Path) :=
  match validateSessionIsRawAndInRoot sp localRoot with
  | .error e => .error (e, fs)
  | .ok _ =>
    match prepareCopying validator fs sp localRoot remoteRoot "error_if_different" with
    | .error e => .error (e, fs)
    | .ok (srcs, dsts) =>
      match copyListOfFiles srcs dsts "error_if_different" fs with
      | .error e => .error e
      | .ok (fs1, _) =>
        match sourceToDest sp localRoot remoteRoot with
        | .error e => .error (e, fs1)
        | .ok remoteSp =>
          match validator fs1 remoteSp with
          | .error e => .error (e, fs1)
          | .ok found =>
            if sortPaths found ≠ sortPaths dsts then
              .error (⟨"RuntimeError",
                "Something went wrong during uploading raw behavioral data for session ",
                sp⟩, fs1)
            else .ok (fs1, found)

/-- Embedding of `upload_raw_ephys_data` (data_transfer.py lines 205-261):
root check, prepare, empty-recordings check, copy, then re-validate the
destination and return whatever it finds without comparing it to the planned
destination paths. -/
def uploadRawEphysData (validator : Validator) (fs : FS)
    (sp localRoot remoteRoot : Path) : Except (PyErr × FS) (FS × List Path) :=
  match validateSessionIsRawAndInRoot sp localRoot with
  | .error e => .error (e, fs)
  | .ok _ =>
    match prepareCopying validator fs sp localRoot remoteRoot "error_if_different" with
    | .error e => .error (e, fs)
    | .ok (srcs, dsts) =>
      if srcs.length = 0 then
        .error (⟨"FileNotFoundError",
          "Trying to upload raw ephys data but no recordings found in session ", sp⟩, fs)
      else
        match copyListOfFiles srcs dsts "error_if_different" fs with
        | .error e => .error e
        | .ok (fs1, _) =>
          match sourceToDest sp localRoot remoteRoot with
          | .error e => .error (e, fs1)
          | .ok remoteSp =>
            match validator fs1 remoteSp with
            | .error e => .error (e, fs1)
            | .ok found => .ok (fs1, found)

/-- Embedding of `upload_raw_videos` (data_transfer.py lines 264-324): root
check, local validation with an emptiness check, prepare, copy, then
re-validate the destination checking only that something was found. -/
def uploadRawVideos (validator : Validator) (fs : FS)
    (sp localRoot remoteRoot : Path) : Except (PyErr × FS) (FS × List Path) :=
  match validateSessionIsRawAndInRoot sp localRoot with
  | .error e => .error (e, fs)
  | .ok _ =>
    match validator fs sp with
    | .error e => .error (e, fs)
    | .ok localFiles =>
      if localFiles.length = 0 then
        .error (⟨"FileNotFoundError",
          "Trying to upload raw videos but no video folder found in session ", sp⟩, fs)
      else
        match sourceToDestList localRoot remoteRoot localFiles with
        | .error e => .error (e, fs)
        | .ok _ =>
          match prepareCopying validator fs sp localRoot remoteRoot "error_if_different" with
          | .error e => .error (e, fs)
          | .ok (srcs, dsts) =>
            match copyListOfFiles srcs dsts "error_if_different" fs with
            | .error e => .error e
            | .ok (fs1, _) =>
              match sourceToDest sp localRoot remoteRoot with
              | .error e => .error (e, fs1)
              | .ok remoteSp =>
                match validator fs1 remoteSp with
                | .error e => .error (e, fs1)
                | .ok found =>
                  if found.length = 0 then
                    .error (⟨"FileNotFoundError",
                      "Something went wrong during uploading raw videos.", []⟩, fs1)
                  else .ok (fs1, found)

/-- Embedding of `_find_extra_files_with_extensions` (extra_file_handling.py
lines 57-80): concatenate the per-extension scans. -/
def findExtraFilesWithExtensions (fs : FS) (sp : Path) : List Str → List Path
  | [] => []
  | ext :: rest =>
    findExtraFilesWithExtension fs sp ext ++ findExtraFilesWithExtensions fs sp rest

/-- Embedding of `_prepare_copying_raw_extra_files` (data_transfer.py lines
614-637): gather the extension-matched and whitelisted files, map them to the
destination and run the preflight check. -/
def prepareCopyingRawExtraFiles (fs : FS) (sp sourceBase destBase : Path)
    (wl exts : List Str) (ifExists : String) : Except PyErr (List Path × List Path) :=
  match sourceToDestList sourceBase destBase
      (findExtraFilesWithExtensions fs sp exts ++ findWhitelistedFilesInRoot fs sp wl) with
  | .error e => .error e
  | .ok dsts =>
    match checkListOfFiles
        (findExtraFilesWithExtensions fs sp exts ++ findWhitelistedFilesInRoot fs sp wl)
        dsts ifExists fs with
    | .error e => .error e
    | .ok _ =>
      .ok (findExtraFilesWithExtensions fs sp exts ++ findWhitelistedFilesInRoot fs sp wl,
        dsts)

/-- Embedding of `upload_extra_files` (data_transfer.py lines 327-379): rename
the extra files first, then prepare and copy; no verification afterwards. -/
def uploadExtraFiles (fs : FS) (sp localRoot remoteRoot : Path)
    (wl exts : List Str) : Except (PyErr × FS) (FS × List Path) :=
  match renameExtraFilesInSession fs sp wl exts with
  | .error e => .error e
  | .ok (fs1, _) =>
    match prepareCopyingRawExtraFiles fs1 sp localRoot remoteRoot wl exts
        "error_if_different" with
    | .error e => .error (e, fs1)
    | .ok (srcs, dsts) =>
      match copyListOfFiles srcs dsts "error_if_different" fs1 with
      | .error e => .error e
      | .ok (fs2, _) => .ok (fs2, dsts)

/-- Modelled from the spec: `validate_raw_session`, which is missing from
src/ (only its callers and tests are present).  Spec 4.1/4.4: run the
validator of every included data kind on the local session and return the
per-kind manifests, propagating the first failure. -/
def validateRawSession (vb ve vv : Validator) (incB incE incV : Bool)
    (fs : FS) (sp : Path) : Except PyErr (List Path × List Path × List Path) :=
  match (if incB then vb fs sp else .ok []) with
  | .error e => .error e
  | .ok bf =>
    match (if incE then ve fs sp else .ok []) with
    | .error e => .error e
    | .ok ef =>
      match (if incV then vv fs sp else .ok []) with
      | .error e => .error e
      | .ok vf => .ok (bf, ef, vf)

/-- Embedding of `upload_raw_session` (data_transfer.py lines 25-141),
parameterised over the three per-kind validators: optional rename passes,
whole-session validation, then the per-kind uploads run sequentially, each
doing its own prepare-and-copy. -/
def uploadRawSession (vb ve vv : Validator) (fs : FS) (sp : Path)
    (subjectName : Str) (localRoot remoteRoot : Path)
    (incB incE incV incX : Bool) (wl exts : List Str)
    (renameVideosFirst renameExtraFirst : Bool) : Except (PyErr × FS) FS :=
  match (if renameVideosFirst then
      (if incV = false then
        .error (⟨"ValueError",
          "Do not rename videos with upload_raw_session if not uploading them.", []⟩, fs)
      else
        match renameRawVideosOfSession subjectName fs sp with
        | .error e => .error e
        | .ok (fs1, _) => .ok fs1)
    else .ok fs : Except (PyErr × FS) FS) with
  | .error e => .error e
  | .ok fsA =>
    match (if renameExtraFirst then
        (if incX = false then
          .error (⟨"ValueError",
            "Do not rename extra files with upload_raw_session if not uploading them.",
            []⟩, fsA)
        else
          match renameExtraFilesInSession fsA sp wl exts with
          | .error e => .error e
          | .ok (fs2, _) => .ok fs2)
      else .ok fsA : Except (PyErr × FS) FS) with
    | .error e => .error e
    | .ok fsB =>
      match validateRawSession vb ve vv incB incE incV fsB sp with
      | .error e => .error (e, fsB)
      | .ok _ =>
        match (if incB then
            match uploadRawBehavioralData vb fsB sp localRoot remoteRoot with
            | .error e => .error e
            | .ok (f, _) => .ok f
          else .ok fsB : Except (PyErr × FS) FS) with
        | .error e => .error e
        | .ok fsC =>
          match (if incE then
              match uploadRawEphysData ve fsC sp localRoot remoteRoot with
              | .error e => .error e
              | .ok (f, _) => .ok f
            else .ok fsC : Except (PyErr × FS) FS) with
          | .error e => .error e
          | .ok fsD =>
            match (if incV then
                match uploadRawVideos vv fsD sp localRoot remoteRoot with
                | .error e => .error e
                | .ok (f, _) => .ok f
              else .ok fsD : Except (PyErr × FS) FS) with
            | .error e => .error e
            | .ok fsE =>
              match (if incX then
                  match uploadExtraFiles fsE sp localRoot remoteRoot wl exts with
                  | .error e => .error e
                  | .ok (f, _) => .ok f
                else .ok fsE : Except (PyErr × FS) FS) with
              | .error e => .error e
              | .ok fsF => .ok fsF

/-- Local root of the concrete upload examples. -/
def exUpLocalRoot : Path := [S "local", S "raw"]

/-- Remote root of the concrete upload examples. -/
def exUpRemoteRoot : Path := [S "remote", S "raw"]

/-- Session path of the concrete upload examples. -/
def exUpSp : Path := [S "local", S "raw", S "ses"]

/-- Behavioral validator of the upload examples: one log file per session. -/
def exUpVb : Validator := fun _ sp => .ok [sp ++ [S "beh.txt"]]

/-- Ephys validator of the upload examples: one recording file per session. -/
def exUpVe : Validator := fun _ sp => .ok [sp ++ [S "probe.bin"]]

/-- Video validator of the upload examples: no videos. -/
def exUpVv : Validator := fun _ _ => .ok []

/-- Upload example where the remote already holds a conflicting ephys file:
the behavioral copy will succeed and the ephys preflight will then fail. -/
def exUpFs : FS :=
  { files := [([S "local", S "raw", S "ses", S "beh.txt"], [1]),
              ([S "local", S "raw", S "ses", S "probe.bin"], [2]),
              ([S "remote", S "raw", S "ses", S "probe.bin"], [9])]
    dirs := [[S "local"], [S "local", S "raw"], [S "local", S "raw", S "ses"],
             [S "remote"], [S "remote", S "raw"], [S "remote", S "raw", S "ses"]] }

/-- State at the ephys preflight failure: the behavioral file has already
been copied to the remote. -/
def exUpFsMid : FS :=
  { files := ([S "remote", S "raw", S "ses", S "beh.txt"], [1]) :: exUpFs.files
    dirs := exUpFs.dirs }

/-- Upload example where the remote already holds a conflicting behavioral
file, so the very first preflight fails. -/
def exUpPreFs : FS :=
  { files := [([S "local", S "raw", S "ses", S "beh.txt"], [1]),
              ([S "local", S "raw", S "ses", S "probe.bin"], [2]),
              ([S "remote", S "raw", S "ses", S "beh.txt"], [9])]
    dirs := [[S "local"], [S "local", S "raw"], [S "local", S "raw", S "ses"],
             [S "remote"], [S "remote", S "raw"], [S "remote", S "raw", S "ses"]] }

/-- Ephys validator that finds the local recording but nothing on the
remote: the planned and found destination sets will differ. -/
def exC6Ve : Validator := fun _ sp =>
  if sp = exUpSp then .ok [sp ++ [S "probe.bin"]] else .ok []

/-- Filesystem for the ephys verification counterexample. -/
def exC6Fs : FS :=
  { files := [([S "local", S "raw", S "ses", S "probe.bin"], [2])]
    dirs := [[S "local"], [S "local", S "raw"], [S "local", S "raw", S "ses"],
             [S "remote"], [S "remote", S "raw"]] }

/-- State after the ephys copy: the recording is on the remote. -/
def exC6FsMid : FS :=
  { files := ([S "remote", S "raw", S "ses", S "probe.bin"], [2]) :: exC6Fs.files
    dirs := exC6Fs.dirs ++ [[S "remote", S "raw", S "ses"]] }

/-- Behavioral validator that finds the local log file but nothing on the
remote: the sorted comparison will fail. -/
def exC6Vb : Validator := fun _ sp =>
  if sp = exUpSp then .ok [sp ++ [S "beh.txt"]] else .ok []

/-- Filesystem for the behavioral verification example. -/
def exC6BFs : FS :=
  { files := [([S "local", S "raw", S "ses", S "beh.txt"], [1])]
    dirs := [[S "local"], [S "local", S "raw"], [S "local", S "raw", S "ses"],
             [S "remote"], [S "remote", S "raw"]] }

/-- State after the behavioral copy, kept by the RuntimeError. -/
def exC6BFsMid : FS :=
  { files := ([S "remote", S "raw", S "ses", S "beh.txt"], [1]) :: exC6BFs.files
    dirs := exC6BFs.dirs ++ [[S "remote", S "raw", S "ses"]] }

/-! ### Theorems -/

/-- Helper: zipping two lists only pairs entries up to the shorter length. -/
theorem zip_truncates : ∀ (l1 l2 : List Path),
    l1.zip l2 = (l1.take (min l1.length l2.length)).zip (l2.take (min l1.length l2.length))
  | [], _ => by simp
  | _ :: _, [] => by simp
  | a :: l1, b :: l2 => by
    simpa [Nat.succ_min_succ] using zip_truncates l1 l2


/-- Helper: `memP` over an extended list. -/
theorem memP_append_single (l : List Path) (a d : Path) (h : memP l d = true) :
    memP (l ++ [a]) d = true := by
  induction l with
  | nil => simp [memP] at h
  | cons q rest ih =>
    by_cases hq : q = d
    · simp [memP, hq]
    · simp only [memP, hq, if_false] at h
      simp only [List.cons_append, memP, hq, if_false]
      exact ih h

/-- Helper: `FS.addDir` never removes a directory and keeps files intact. -/
theorem addDir_mono (fs : FS) (a : Path) :
    (fs.addDir a).files = fs.files ∧
    (∀ d, memP fs.dirs d = true → memP (fs.addDir a).dirs d = true) := by
  unfold FS.addDir
  split
  · exact ⟨rfl, fun _ h => h⟩
  · exact ⟨rfl, fun d h => memP_append_single fs.dirs a d h⟩

/-- Helper: folding `FS.addDir` never removes a directory and keeps files
intact. -/
theorem foldl_addDir_mono : ∀ (l : List Path) (fs : FS),
    (l.foldl FS.addDir fs).files = fs.files ∧
    (∀ d, memP fs.dirs d = true → memP (l.foldl FS.addDir fs).dirs d = true)
  | [], _ => ⟨rfl, fun _ h => h⟩
  | a :: l, fs => by
    rw [List.foldl_cons]
    have h1 := addDir_mono fs a
    have h2 := foldl_addDir_mono l (fs.addDir a)
    exact ⟨h2.1.trans h1.1, fun d h => h2.2 d (h1.2 d h)⟩

/-- Helper: `mkdirParents` keeps the files untouched and never removes a
directory. -/
theorem mkdirParents_mono (fs : FS) (p : Path) :
    (mkdirParents fs p).files = fs.files ∧
    (∀ d, memP fs.dirs d = true → memP (mkdirParents fs p).dirs d = true) :=
  foldl_addDir_mono (ancestors p.dropLast) fs

/-- Helper: writing one file never removes another. -/
theorem setFile_keeps (fs : FS) (q : Path) (c : Content) (p : Path)
    (h : (fs.getFile p).isSome = true) : ((fs.setFile q c).getFile p).isSome = true := by
  unfold FS.setFile FS.getFile lookupFile
  split <;> simp [FS.getFile] at h ⊢
  exact h

/-- Helper: the error classes `copy2` can raise. -/
theorem copy2_error_cases (fs : FS) (sp dp : Path) (e : PyErr) (h : copy2 fs sp dp = .error e) :
    e.etype = "FileNotFoundError" ∨ e.etype = "IsADirectoryError" := by
  unfold copy2 at h
  split at h
  · simp only [Except.error.injEq] at h
    rw [← h]
    left; rfl
  · split at h
    · simp only [Except.error.injEq] at h
      rw [← h]
      right; rfl
    · exact absurd h (by simp)

/-- Helper: a successful `copy2` writes the source's content at the
destination. -/
theorem copy2_ok_cases (fs : FS) (sp dp : Path) (fs1 : FS) (h : copy2 fs sp dp = .ok fs1) :
    ∃ c, lookupFile fs.files sp = some c ∧ fs1 = fs.setFile dp c := by
  unfold copy2 at h
  split at h
  · exact absurd h (by simp)
  · rename_i c heq
    split at h
    · exact absurd h (by simp)
    · simp only [Except.ok.injEq] at h
      exact ⟨c, heq, h.symm⟩

/-- Helper: the error class `fileCmp` can raise. -/
theorem fileCmp_error_cases (fs : FS) (p q : Path) (e : PyErr) (h : fileCmp fs p q = .error e) :
    e.etype = "FileNotFoundError" := by
  unfold fileCmp at h
  split at h
  · simp only [Except.error.injEq] at h
    rw [← h]
  · split at h
    · simp only [Except.error.injEq] at h
      rw [← h]
    · exact absurd h (by simp)

/-- Helper: `FsLe` is reflexive. -/
theorem fsLe_refl (fs : FS) : FsLe fs fs := ⟨fun _ h => h, fun _ h => h⟩

/-- Helper: `FsLe` is transitive. -/
theorem fsLe_trans {a b c : FS} (h1 : FsLe a b) (h2 : FsLe b c) : FsLe a c :=
  ⟨fun p h => h2.1 p (h1.1 p h), fun d h => h2.2 d (h1.2 d h)⟩

/-- Helper: `mkdirParents` only grows the filesystem. -/
theorem mkdirParents_le (fs : FS) (p : Path) : FsLe fs (mkdirParents fs p) := by
  have h := mkdirParents_mono fs p
  exact ⟨fun q hq => by unfold FS.getFile at *; rw [h.1]; exact hq, h.2⟩

/-- Helper: `setFile` only grows the filesystem. -/
theorem setFile_le (fs : FS) (q : Path) (c : Content) : FsLe fs (fs.setFile q c) :=
  ⟨fun p h => setFile_keeps fs q c p h, fun _ h => h⟩

/-- Helper: on failure, the post-mkdir step hands back the filesystem it was
given, and the exception is one of the loop's own exception classes. -/
theorem copyOneAfterMkdir_error_state (ifExists : String) (fs : FS) (sp dp : Path)
    (e : PyErr) (fs1 : FS) (h : copyOneAfterMkdir ifExists fs sp dp = .error (e, fs1)) :
    fs1 = fs ∧ (e.etype = "FileNotFoundError" ∨ e.etype = "IsADirectoryError" ∨
      e.etype = "FileExistsError" ∨ e.etype = "ValueError") := by
  unfold copyOneAfterMkdir at h
  split at h
  · split at h
    · rename_i e2 heq
      simp only [Except.error.injEq, Prod.mk.injEq] at h
      refine ⟨h.2.symm, ?_⟩
      rcases copy2_error_cases fs sp dp e2 heq with h1 | h1 <;> rw [← h.1]
      · left; exact h1
      · right; left; exact h1
    · exact absurd h (by simp)
  · split at h
    · split at h
      · rename_i e2 heq
        simp only [Except.error.injEq, Prod.mk.injEq] at h
        refine ⟨h.2.symm, ?_⟩
        rcases copy2_error_cases fs sp dp e2 heq with h1 | h1 <;> rw [← h.1]
        · left; exact h1
        · right; left; exact h1
      · exact absurd h (by simp)
    · split at h
      · exact absurd h (by simp)
      · split at h
        · split at h
          · rename_i e2 heq
            simp only [Except.error.injEq, Prod.mk.injEq] at h
            refine ⟨h.2.symm, ?_⟩
            rw [← h.1]
            left
            exact fileCmp_error_cases fs sp dp e2 heq
          · exact absurd h (by simp)
          · simp only [Except.error.injEq, Prod.mk.injEq] at h
            refine ⟨h.2.symm, ?_⟩
            rw [← h.1]
            right; right; left; rfl
        · split at h
          · simp only [Except.error.injEq, Prod.mk.injEq] at h
            refine ⟨h.2.symm, ?_⟩
            rw [← h.1]
            right; right; left; rfl
          · simp only [Except.error.injEq, Prod.mk.injEq] at h
            refine ⟨h.2.symm, ?_⟩
            rw [← h.1]
            right; right; right; rfl

/-- Helper: on success, the post-mkdir step either leaves the filesystem
unchanged or writes exactly the source content at the destination. -/
theorem copyOneAfterMkdir_ok_state (ifExists : String) (fs : FS) (sp dp : Path)
    (fs1 : FS) (tr : List (Path × Path))
    (h : copyOneAfterMkdir ifExists fs sp dp = .ok (fs1, tr)) :
    fs1 = fs ∨ ∃ c, lookupFile fs.files sp = some c ∧ fs1 = fs.setFile dp c := by
  unfold copyOneAfterMkdir at h
  split at h
  · split at h
    · exact absurd h (by simp)
    · rename_i fs2 heq
      simp only [Except.ok.injEq, Prod.mk.injEq] at h
      right
      rw [← h.1]
      exact copy2_ok_cases fs sp dp fs2 heq
  · split at h
    · split at h
      · exact absurd h (by simp)
      · rename_i fs2 heq
        simp only [Except.ok.injEq, Prod.mk.injEq] at h
        right
        rw [← h.1]
        exact copy2_ok_cases fs sp dp fs2 heq
    · split at h
      · simp only [Except.ok.injEq, Prod.mk.injEq] at h
        left; exact h.1.symm
      · split at h
        · split at h
          · exact absurd h (by simp)
          · simp only [Except.ok.injEq, Prod.mk.injEq] at h
            left; exact h.1.symm
          · exact absurd h (by simp)
        · split at h
          · exact absurd h (by simp)
          · exact absurd h (by simp)

/-- Helper: one loop step only grows the filesystem, on success or failure. -/
theorem copyOne_le (ifExists : String) (fs0 : FS) (sp dp : Path) :
    (∀ fs1 tr, copyOne ifExists fs0 sp dp = .ok (fs1, tr) → FsLe fs0 fs1) ∧
    (∀ e fs1, copyOne ifExists fs0 sp dp = .error (e, fs1) →
      FsLe fs0 fs1 ∧ (e.etype = "FileNotFoundError" ∨ e.etype = "IsADirectoryError" ∨
        e.etype = "FileExistsError" ∨ e.etype = "ValueError")) := by
  have hmk := mkdirParents_le fs0 dp
  constructor
  · intro fs1 tr h
    unfold copyOne at h
    rcases copyOneAfterMkdir_ok_state ifExists _ sp dp fs1 tr h with h1 | ⟨c, _, h1⟩
    · rw [h1]; exact hmk
    · rw [h1]; exact fsLe_trans hmk (setFile_le _ dp c)
  · intro e fs1 h
    unfold copyOne at h
    have h1 := copyOneAfterMkdir_error_state ifExists _ sp dp e fs1 h
    exact ⟨h1.1 ▸ hmk, h1.2⟩

/-- Helper: the copy loop only grows the filesystem, on success or failure,
and on failure the exception is one of the loop's own exception classes. -/
theorem copyPairs_le (ifExists : String) : ∀ (prs : List (Path × Path)) (fs : FS),
    (∀ fs1 tr, copyPairs ifExists fs prs = .ok (fs1, tr) → FsLe fs fs1) ∧
    (∀ e fs1, copyPairs ifExists fs prs = .error (e, fs1) →
      FsLe fs fs1 ∧ (e.etype = "FileNotFoundError" ∨ e.etype = "IsADirectoryError" ∨
        e.etype = "FileExistsError" ∨ e.etype = "ValueError"))
  | [], fs => by
    constructor
    · intro fs1 tr h
      simp only [copyPairs, Except.ok.injEq, Prod.mk.injEq] at h
      rw [← h.1]
      exact fsLe_refl fs
    · intro e fs1 h
      simp [copyPairs] at h
  | (sp, dp) :: rest, fs => by
    constructor
    · intro fs1 tr h
      unfold copyPairs at h
      split at h
      · exact absurd h (by simp)
      · rename_i fs2 tr2 heq
        split at h
        · exact absurd h (by simp)
        · rename_i fs3 tr3 heq2
          simp only [Except.ok.injEq, Prod.mk.injEq] at h
          rw [← h.1]
          exact fsLe_trans ((copyOne_le ifExists fs sp dp).1 fs2 tr2 heq)
            ((copyPairs_le ifExists rest fs2).1 fs3 tr3 heq2)
    · intro e fs1 h
      unfold copyPairs at h
      split at h
      · rename_i e2 heq
        simp only [Except.error.injEq] at h
        rw [h] at heq
        exact (copyOne_le ifExists fs sp dp).2 e fs1 heq
      · rename_i fs2 tr2 heq
        split at h
        · rename_i e2 heq2
          simp only [Except.error.injEq] at h
          rw [h] at heq2
          have hrest := (copyPairs_le ifExists rest fs2).2 e fs1 heq2
          exact ⟨fsLe_trans ((copyOne_le ifExists fs sp dp).1 fs2 tr2 heq) hrest.1, hrest.2⟩
        · exact absurd h (by simp)

/-- C10: for every pair of source and destination path lists, both the
pre-flight check and the copy executor process exactly the pairs up to the
length of the shorter list; the surplus entries of the longer list are never
copied, never checked, and no error is raised about the length mismatch. -/
theorem surplus_path_pairs_are_silently_ignored (srcs dsts : List Path)
    (ifExists : String) (fs : FS) :
    copyListOfFiles srcs dsts ifExists fs =
      copyListOfFiles (srcs.take (min srcs.length dsts.length))
        (dsts.take (min srcs.length dsts.length)) ifExists fs ∧
    checkListOfFiles srcs dsts ifExists fs =
      checkListOfFiles (srcs.take (min srcs.length dsts.length))
        (dsts.take (min srcs.length dsts.length)) ifExists fs := by
  constructor
  · unfold copyListOfFiles
    rw [← zip_truncates]
  · unfold checkListOfFiles
    rw [← zip_truncates]

/-- C1 counterexample: running the copy executor on the concrete example
stops at the second pair with the original `FileExistsError` (there is no
`TransferError` anywhere), and the file copied by the first pair is still
present at the destination — the destination does not contain exactly the
files that existed before the operation. -/
theorem copy_failure_leaves_partial_copy_behind :
    copyListOfFiles exSrcs exDsts "error_if_different" exFs = .error (exErr, exFsAfter) ∧
    exFs.getFile [S "dst", S "a"] = none ∧
    exFsAfter.getFile [S "dst", S "a"] = some [1] ∧
    exErr.etype = "FileExistsError" := by
  refine ⟨by rfl, by decide, by decide, rfl⟩

/-- C1 amended: when the copy of any single pair fails, the loop stops and
propagates the original exception (one of `FileNotFoundError`,
`IsADirectoryError`, `FileExistsError`, `ValueError`; never a wrapping
`TransferError`), and nothing is deleted: every file and every directory
present before the operation is still present in the state at the moment the
exception is raised, including the files already copied during the
operation. -/
theorem copy_failure_stops_without_rollback (srcs dsts : List Path)
    (ifExists : String) (fs : FS) (e : PyErr) (fs1 : FS)
    (h : copyListOfFiles srcs dsts ifExists fs = .error (e, fs1)) :
    FsLe fs fs1 ∧
    (e.etype = "FileNotFoundError" ∨ e.etype = "IsADirectoryError" ∨
      e.etype = "FileExistsError" ∨ e.etype = "ValueError") ∧
    e.etype ≠ "TransferError" := by
  unfold copyListOfFiles at h
  have hle := (copyPairs_le ifExists (srcs.zip dsts) fs).2 e fs1 h
  refine ⟨hle.1, hle.2, ?_⟩
  rcases hle.2 with h1 | h1 | h1 | h1 <;> rw [h1] <;> decide

/-- C1 amended, witness: the concrete failing example discharges the
hypothesis, and the state at the exception still holds every original file. -/
theorem copy_failure_stops_without_rollback_witness :
    copyListOfFiles exSrcs exDsts "error_if_different" exFs = .error (exErr, exFsAfter) ∧
    (exFsAfter.getFile [S "dst", S "b"]).isSome = true ∧
    exErr.etype ≠ "TransferError" := by
  have h : copyListOfFiles exSrcs exDsts "error_if_different" exFs =
      .error (exErr, exFsAfter) := by rfl
  have hc := copy_failure_stops_without_rollback exSrcs exDsts "error_if_different"
    exFs exErr exFsAfter h
  exact ⟨h, hc.1.1 [S "dst", S "b"] (by decide), hc.2.2⟩

/-- Helper: folding `FS.addDir` over directories that all already exist is a
no-op. -/
theorem foldl_addDir_no_op : ∀ (l : List Path) (fs : FS),
    (∀ a ∈ l, memP fs.dirs a = true) → l.foldl FS.addDir fs = fs
  | [], _, _ => rfl
  | a :: l, fs, h => by
    rw [List.foldl_cons]
    have ha : fs.addDir a = fs := by
      unfold FS.addDir
      rw [h a (List.mem_cons_self a l)]
      rfl
    rw [ha]
    exact foldl_addDir_no_op l fs fun b hb => h b (List.mem_cons_of_mem a hb)

/-- Helper: `mkdirParents` is a no-op when all the parent's ancestors already
exist. -/
theorem mkdirParents_no_op (fs : FS) (p : Path)
    (h : ∀ a ∈ ancestors p.dropLast, memP fs.dirs a = true) : mkdirParents fs p = fs :=
  foldl_addDir_no_op (ancestors p.dropLast) fs h

/-- Helper: the pre-flight check passes a pair whose destination already holds
a byte-for-byte identical copy of the source. -/
theorem checkOne_synced (fs : FS) (sp dp : Path) (c : Content)
    (hs : fs.getFile sp = some c) (hd : fs.getFile dp = some c) :
    checkOne "error_if_different" fs sp dp = .ok () := by
  have hex : fs.existsPath dp = true := by
    unfold FS.existsPath
    rw [hd]
    rfl
  unfold checkOne
  rw [hex]
  have hcmp : fileCmp fs sp dp = .ok true := by
    unfold fileCmp
    unfold FS.getFile at hs hd
    rw [hs, hd]
    simp
  simp [hcmp]

/-- Helper: the copy loop body is a pure no-op on a pair whose destination
already holds an identical copy and whose parent directories exist. -/
theorem copyOne_synced (fs : FS) (sp dp : Path) (c : Content)
    (hs : fs.getFile sp = some c) (hd : fs.getFile dp = some c)
    (hdirs : ∀ a ∈ ancestors dp.dropLast, memP fs.dirs a = true) :
    copyOne "error_if_different" fs sp dp = .ok (fs, []) := by
  unfold copyOne
  rw [mkdirParents_no_op fs dp hdirs]
  have hex : fs.existsPath dp = true := by
    unfold FS.existsPath
    rw [hd]
    rfl
  unfold copyOneAfterMkdir
  rw [hex]
  have hcmp : fileCmp fs sp dp = .ok true := by
    unfold fileCmp
    unfold FS.getFile at hs hd
    rw [hs, hd]
    simp
  simp [hcmp]

/-- Helper: the pre-flight check succeeds on a list of fully synced pairs. -/
theorem checkPairs_all_synced : ∀ (prs : List (Path × Path)) (fs : FS),
    (∀ pr ∈ prs, ∃ c, fs.getFile pr.1 = some c ∧ fs.getFile pr.2 = some c) →
    checkPairs "error_if_different" fs prs = .ok ()
  | [], _, _ => rfl
  | (sp, dp) :: rest, fs, h => by
    obtain ⟨c, hs, hd⟩ := h (sp, dp) (List.mem_cons_self _ rest)
    unfold checkPairs
    rw [checkOne_synced fs sp dp c hs hd]
    exact checkPairs_all_synced rest fs fun pr hpr => h pr (List.mem_cons_of_mem _ hpr)

/-- Helper: the copy loop is a pure no-op on a list of fully synced pairs. -/
theorem copyPairs_all_synced : ∀ (prs : List (Path × Path)) (fs : FS),
    (∀ pr ∈ prs, ∃ c, fs.getFile pr.1 = some c ∧ fs.getFile pr.2 = some c) →
    (∀ pr ∈ prs, ∀ a ∈ ancestors pr.2.dropLast, memP fs.dirs a = true) →
    copyPairs "error_if_different" fs prs = .ok (fs, [])
  | [], _, _, _ => rfl
  | (sp, dp) :: rest, fs, h, hdirs => by
    obtain ⟨c, hs, hd⟩ := h (sp, dp) (List.mem_cons_self _ rest)
    have h1 := copyOne_synced fs sp dp c hs hd (hdirs (sp, dp) (List.mem_cons_self _ rest))
    have h2 := copyPairs_all_synced rest fs
      (fun pr hpr => h pr (List.mem_cons_of_mem _ hpr))
      (fun pr hpr => hdirs pr (List.mem_cons_of_mem _ hpr))
    unfold copyPairs
    simp [h1, h2]

/-- Helper: the pre-flight check stops at the first differing pair and names
that pair's destination. -/
theorem checkPairs_first_different : ∀ (pre : List (Path × Path)) (fs : FS)
    (s d : Path) (post : List (Path × Path)) (ca cb : Content),
    (∀ pr ∈ pre, ∃ c, fs.getFile pr.1 = some c ∧ fs.getFile pr.2 = some c) →
    fs.getFile s = some ca → fs.getFile d = some cb → ca ≠ cb →
    checkPairs "error_if_different" fs (pre ++ (s, d) :: post) =
      .error ⟨"FileExistsError", "File already exists and is different: ", d⟩
  | [], fs, s, d, post, ca, cb, _, hs, hd, hne => by
    have hex : fs.existsPath d = true := by
      unfold FS.existsPath
      rw [hd]
      rfl
    rw [List.nil_append]
    unfold checkPairs checkOne
    rw [hex]
    have hcmp : fileCmp fs s d = .ok false := by
      unfold fileCmp
      unfold FS.getFile at hs hd
      rw [hs, hd]
      simp [hne]
    simp [hcmp]
  | pr0 :: pre, fs, s, d, post, ca, cb, h, hs, hd, hne => by
    obtain ⟨c, hps, hpd⟩ := h pr0 (List.mem_cons_self _ pre)
    rw [List.cons_append]
    unfold checkPairs
    rw [checkOne_synced fs pr0.1 pr0.2 c hps hpd]
    exact checkPairs_first_different pre fs s d post ca cb
      (fun pr hpr => h pr (List.mem_cons_of_mem _ hpr)) hs hd hne

/-- C4: the pre-flight collision policy (which only reads the filesystem and
returns no new state): `overwrite` and `skip` always pass; `error` fails
exactly when the destination exists; `error_if_different` compares contents
byte for byte and fails exactly when the destination exists with different
content, raising `FileExistsError` naming that destination.  Consequently a
fully synced pair list re-checks and re-copies as a no-op with zero copies,
while one changed source byte makes the check raise an error naming that
file's destination. -/
theorem preflight_policy_semantics :
    (∀ (fs : FS) (sp dp : Path),
      checkOne "overwrite" fs sp dp = .ok () ∧ checkOne "skip" fs sp dp = .ok ()) ∧
    (∀ (fs : FS) (sp dp : Path),
      checkOne "error" fs sp dp = .ok () ↔ fs.existsPath dp = false) ∧
    (∀ (fs : FS) (sp dp : Path) (ca : Content), fs.getFile sp = some ca →
      (checkOne "error_if_different" fs sp dp = .ok () ↔
        (fs.existsPath dp = false ∨ fs.getFile dp = some ca))) ∧
    (∀ (fs : FS) (sp dp : Path) (ca cb : Content),
      fs.getFile sp = some ca → fs.getFile dp = some cb → ca ≠ cb →
      checkOne "error_if_different" fs sp dp =
        .error ⟨"FileExistsError", "File already exists and is different: ", dp⟩) ∧
    (∀ (srcs dsts : List Path) (fs : FS),
      (∀ pr ∈ srcs.zip dsts, ∃ c, fs.getFile pr.1 = some c ∧ fs.getFile pr.2 = some c) →
      (∀ pr ∈ srcs.zip dsts, ∀ a ∈ ancestors pr.2.dropLast, memP fs.dirs a = true) →
      checkListOfFiles srcs dsts "error_if_different" fs = .ok () ∧
      copyListOfFiles srcs dsts "error_if_different" fs = .ok (fs, [])) ∧
    (∀ (srcs dsts : List Path) (fs : FS) (pre : List (Path × Path)) (s d : Path)
      (post : List (Path × Path)) (ca cb : Content),
      srcs.zip dsts = pre ++ (s, d) :: post →
      (∀ pr ∈ pre, ∃ c, fs.getFile pr.1 = some c ∧ fs.getFile pr.2 = some c) →
      fs.getFile s = some ca → fs.getFile d = some cb → ca ≠ cb →
      checkListOfFiles srcs dsts "error_if_different" fs =
        .error ⟨"FileExistsError", "File already exists and is different: ", d⟩) := by
  refine ⟨?_, ?_, ?_, ?_, ?_, ?_⟩
  · intro fs sp dp
    constructor <;> · unfold checkOne; split <;> simp
  · intro fs sp dp
    unfold checkOne
    split
    · rename_i hex
      simp [hex]
    · rename_i hex
      simp only [Bool.not_eq_false] at hex
      simp [hex]
  · intro fs sp dp ca hs
    unfold checkOne
    split
    · rename_i hex
      simp [hex]
    · rename_i hex
      simp only [Bool.not_eq_false] at hex
      rw [hex]
      cases hd : fs.getFile dp with
      | none =>
        have hcmp : fileCmp fs sp dp = .error ⟨"FileNotFoundError", "No such file or directory: ", dp⟩ := by
          unfold fileCmp
          unfold FS.getFile at hs hd
          rw [hs, hd]
        simp [hcmp]
      | some cb =>
        have hcmp : fileCmp fs sp dp = .ok (decide (ca = cb)) := by
          unfold fileCmp
          unfold FS.getFile at hs hd
          rw [hs, hd]
        by_cases hab : ca = cb
        · simp [hcmp, hab]
        · simp [hcmp, hab]
          intro hcb
          exact hab (by rw [hcb])
  · intro fs sp dp ca cb hs hd hne
    have hex : fs.existsPath dp = true := by
      unfold FS.existsPath
      rw [hd]
      rfl
    unfold checkOne
    rw [hex]
    have hcmp : fileCmp fs sp dp = .ok false := by
      unfold fileCmp
      unfold FS.getFile at hs hd
      rw [hs, hd]
      simp [hne]
    simp [hcmp]
  · intro srcs dsts fs h hdirs
    exact ⟨checkPairs_all_synced (srcs.zip dsts) fs h,
           copyPairs_all_synced (srcs.zip dsts) fs h hdirs⟩
  · intro srcs dsts fs pre s d post ca cb hzip h hs hd hne
    unfold checkListOfFiles
    rw [hzip]
    exact checkPairs_first_different pre fs s d post ca cb h hs hd hne

/-- C4 witness: on the fully synced example the check and the copy are exact
no-ops, and after changing one byte of `src/b` the check raises the
`FileExistsError` naming `dst/b`. -/
theorem preflight_policy_semantics_witness :
    (∀ pr ∈ exSrcs.zip exDsts, ∃ c, exSyncedFs.getFile pr.1 = some c ∧ exSyncedFs.getFile pr.2 = some c) ∧
    (checkListOfFiles exSrcs exDsts "error_if_different" exSyncedFs = .ok () ∧
      copyListOfFiles exSrcs exDsts "error_if_different" exSyncedFs = .ok (exSyncedFs, [])) ∧
    checkListOfFiles exSrcs exDsts "error_if_different" exChangedFs =
      .error ⟨"FileExistsError", "File already exists and is different: ", [S "dst", S "b"]⟩ := by
  refine ⟨by decide, ?_, ?_⟩
  · exact (preflight_policy_semantics.2.2.2.2.1) exSrcs exDsts exSyncedFs
      (by decide) (by decide)
  · exact (preflight_policy_semantics.2.2.2.2.2) exSrcs exDsts exChangedFs
      [([S "src", S "a"], [S "dst", S "a"])] [S "src", S "b"] [S "dst", S "b"] [] [9] [2]
      (by decide) (by decide) (by decide) (by decide) (by decide)

/-- C2: every session folder name accepted by the prescreen decomposes as the
subject name, an underscore, and the re-rendering of the parsed timestamp
with the canonical date format — so formatting the parsed timestamp
reproduces the name exactly; and every time string that parses but is not its
own canonical rendering is rejected with a `ValueError` rather than
accepted. -/
theorem session_name_roundtrip_and_canonicality :
    (∀ folderName subjectName : Str, prescreenFolderName folderName subjectName = .ok () →
      ∃ dt, strptimeYmdHM (extractDateStr folderName subjectName) = some dt ∧
        folderName = subjectName ++ '_' :: strftimeYmdHM dt) ∧
    (∀ s : Str, validateTimeFormat s = .ok () →
      ∃ dt, strptimeYmdHM s = some dt ∧ strftimeYmdHM dt = s) ∧
    (∀ (s : Str) (dt : DateTimeYmdHM), strptimeYmdHM s = some dt → s ≠ strftimeYmdHM dt →
      validateTimeFormat s =
        .error ⟨"ValueError", "does not match expected format (non-canonical)", []⟩) := by
  have hvalid : ∀ s : Str, validateTimeFormat s = .ok () →
      ∃ dt, strptimeYmdHM s = some dt ∧ strftimeYmdHM dt = s := by
    intro s h
    unfold validateTimeFormat at h
    split at h
    · exact absurd h (by simp)
    · rename_i dt heq
      split at h
      · rename_i hcanon
        exact ⟨dt, heq, hcanon.symm⟩
      · exact absurd h (by simp)
  refine ⟨?_, hvalid, ?_⟩
  · intro f sub h
    unfold prescreenFolderName at h
    split at h
    · exact absurd h (by simp)
    · rename_i hpre
      simp only [Bool.not_eq_false] at hpre
      have hp : sub <+: f := List.isPrefixOf_iff_prefix.mp hpre
      obtain ⟨t, ht⟩ := hp
      split at h
      · exact absurd h (by simp)
      · rename_i c rest hdrop
        split at h
        · rename_i hc
          obtain ⟨dt, hparse, hfmt⟩ := hvalid _ h
          have htt : f.drop sub.length = t := by
            rw [← ht, List.drop_left]
          have htcr : t = c :: rest := by rw [← htt, hdrop]
          have hext : extractDateStr f sub = rest := by
            unfold extractDateStr
            rw [← ht, htcr, hc]
            have : sub ++ '_' :: rest = (sub ++ ['_']) ++ rest := by simp
            rw [this]
            have hlen : sub.length + 1 = (sub ++ ['_']).length := by simp
            rw [hlen, List.drop_left]
          refine ⟨dt, hext ▸ hparse, ?_⟩
          rw [← ht, htcr, hc]
          rw [hext] at hfmt
          rw [hfmt]
        · exact absurd h (by simp)
  · intro s dt h hne
    unfold validateTimeFormat
    rw [h]
    simp only []
    rw [if_neg hne]

/-- C2 witness: the canonical name `M011_2023_04_04_16_00` passes the
prescreen and round-trips, while the parseable but non-canonical time string
`2023_4_04_16_00` parses and is rejected. -/
theorem session_name_roundtrip_and_canonicality_witness :
    prescreenFolderName (S "M011_2023_04_04_16_00") (S "M011") = .ok () ∧
    (∃ dt, strptimeYmdHM (extractDateStr (S "M011_2023_04_04_16_00") (S "M011")) = some dt ∧
      S "M011_2023_04_04_16_00" = S "M011" ++ '_' :: strftimeYmdHM dt) ∧
    strptimeYmdHM (S "2023_4_04_16_00") = some ⟨2023, 4, 4, 16, 0⟩ ∧
    validateTimeFormat (S "2023_4_04_16_00") =
      .error ⟨"ValueError", "does not match expected format (non-canonical)", []⟩ := by
  have h1 : prescreenFolderName (S "M011_2023_04_04_16_00") (S "M011") = .ok () := by rfl
  refine ⟨h1, session_name_roundtrip_and_canonicality.1 _ _ h1, by decide, ?_⟩
  exact session_name_roundtrip_and_canonicality.2.2 (S "2023_4_04_16_00") ⟨2023, 4, 4, 16, 0⟩
    (by decide) (by decide)

/-- Helper: boolean set equality gives membership equivalence. -/
theorem setEqStr_iff (a b : List Str) (h : setEqStr a b = true) :
    ∀ f, f ∈ a ↔ f ∈ b := by
  unfold setEqStr at h
  rw [Bool.and_eq_true, List.all_eq_true, List.all_eq_true] at h
  intro f
  constructor
  · intro hf
    exact of_decide_eq_true (h.1 f hf)
  · intro hf
    exact of_decide_eq_true (h.2 f hf)

/-- Helper: a successful probe-index extraction pins the folder name down to
exactly `{recording}_imec{d}`. -/
theorem probeIndexOf_some (recName n : Str) (d : Char)
    (h : probeIndexOf recName n = some d) :
    n = recName ++ S "_imec" ++ [d] ∧ d.isDigit = true := by
  unfold probeIndexOf at h
  split at h
  · rename_i d0 heq
    split at h
    · rename_i hcond
      rw [Bool.and_eq_true] at hcond
      have hd : d0 = d := by simpa using h
      subst hd
      obtain ⟨t, ht⟩ := List.isPrefixOf_iff_prefix.mp hcond.1
      have h5 : (S "_imec").length = 5 := by decide
      have hlen : (recName ++ S "_imec").length = recName.length + 5 := by
        rw [List.length_append, h5]
      have hteq : List.drop (recName.length + 5) n = t := by
        rw [← ht, ← hlen]
        exact List.drop_left _ _
      have htd : t = [d0] := by rw [← hteq, heq]
      subst htd
      refine ⟨?_, hcond.2⟩
      rw [← ht, List.append_assoc]
    · exact absurd h (by simp)
  · exact absurd h (by simp)

/-- Helper: when the spec-modelled probe-file check passes, each non-hidden
probe directory has a probe index and exactly the expected file set. -/
theorem validateProbeFiles_ok (recName : Str) : ∀ (children : List RecChild),
    validateProbeFiles recName children = .ok () →
    ∀ ch ∈ children, ∀ pd, ch = RecChild.dir pd → isHidden pd.name = false →
      ∃ d, probeIndexOf recName pd.name = some d ∧
        setEqStr pd.files (expectedProbeFiles recName d) = true
  | [], _, ch, hch, _, _, _ => absurd hch (List.not_mem_nil ch)
  | ch0 :: rest, h, ch, hch, pd, hpd, hhid => by
    unfold validateProbeFiles at h
    split at h
    · rcases List.mem_cons.mp hch with hh | ht
      · rw [hh] at hpd
        exact absurd hpd (by simp)
      · exact validateProbeFiles_ok recName rest h ch ht pd hpd hhid
    · split at h
      · rename_i hhid0
        rcases List.mem_cons.mp hch with hh | ht
        · rw [hh] at hpd
          injection hpd with hpd2
          rw [hpd2] at hhid0
          simp [hhid] at hhid0
        · exact validateProbeFiles_ok recName rest h ch ht pd hpd hhid
      · split at h
        · exact absurd h (by simp)
        · rename_i idx hidx
          split at h
          · rename_i hset
            rcases List.mem_cons.mp hch with hh | ht
            · rw [hh] at hpd
              injection hpd with hpd2
              subst hpd2
              exact ⟨idx, hidx, hset⟩
            · exact validateProbeFiles_ok recName rest h ch ht pd hpd hhid
          · exact absurd h (by simp)

/-- C5: if raw ephys validation accepts a recording folder, every non-hidden
probe subfolder is named exactly `{recording}_imec{d}` and its child file set
equals exactly the four expected filenames derived from the recording name
and the probe index (set equality in both directions); conversely a probe
folder whose file set differs from the expected four is a hard error, never
silently accepted. -/
theorem ephys_probe_file_sets_match_exactly :
    (∀ (sessionName : Str) (rec : RecordingDir),
      validateRawEphysRecording sessionName rec = .ok () →
      ∀ ch ∈ rec.children, ∀ pd, ch = RecChild.dir pd → isHidden pd.name = false →
        ∃ d, pd.name = rec.name ++ S "_imec" ++ [d] ∧ d.isDigit = true ∧
          (∀ f, f ∈ pd.files ↔ f ∈ expectedProbeFiles rec.name d)) ∧
    (∀ (sessionName : Str) (rec : RecordingDir) (pd : ProbeDir),
      RecChild.dir pd ∈ rec.children → isHidden pd.name = false →
      (¬ ∃ d, pd.name = rec.name ++ S "_imec" ++ [d] ∧ d.isDigit = true ∧
        (∀ f, f ∈ pd.files ↔ f ∈ expectedProbeFiles rec.name d)) →
      validateRawEphysRecording sessionName rec ≠ .ok ()) := by
  have hfst : ∀ (sessionName : Str) (rec : RecordingDir),
      validateRawEphysRecording sessionName rec = .ok () →
      ∀ ch ∈ rec.children, ∀ pd, ch = RecChild.dir pd → isHidden pd.name = false →
        ∃ d, pd.name = rec.name ++ S "_imec" ++ [d] ∧ d.isDigit = true ∧
          (∀ f, f ∈ pd.files ↔ f ∈ expectedProbeFiles rec.name d) := by
    intro sessionName rec h ch hch pd hpd hhid
    unfold validateRawEphysRecording at h
    split at h
    · exact absurd h (by simp)
    · split at h
      · split at h
        · exact absurd h (by simp)
        · obtain ⟨d, hidx, hset⟩ :=
            validateProbeFiles_ok rec.name rec.children h ch hch pd hpd hhid
          obtain ⟨hname, hdig⟩ := probeIndexOf_some rec.name pd.name d hidx
          exact ⟨d, hname, hdig, setEqStr_iff _ _ hset⟩
      · exact absurd h (by simp)
  refine ⟨hfst, ?_⟩
  intro sessionName rec pd hmem hhid hnot hok
  exact hnot (hfst sessionName rec hok (RecChild.dir pd) hmem pd rfl hhid)

/-- C5 witness: the concrete recording folder with one probe folder holding
exactly the four expected files validates, and the theorem yields the exact
file-set equality for that probe folder. -/
theorem ephys_probe_file_sets_match_exactly_witness :
    validateRawEphysRecording (S "M011_2023_04_04_16_00") exRec = .ok () ∧
    ∃ d, exProbe.name = exRec.name ++ S "_imec" ++ [d] ∧ d.isDigit = true ∧
      (∀ f, f ∈ exProbe.files ↔ f ∈ expectedProbeFiles exRec.name d) := by
  have h : validateRawEphysRecording (S "M011_2023_04_04_16_00") exRec = .ok () := by rfl
  refine ⟨h, ?_⟩
  exact ephys_probe_file_sets_match_exactly.1 (S "M011_2023_04_04_16_00") exRec h
    (RecChild.dir exProbe) (by decide) exProbe rfl (by decide)

/-- Helper: the filename loop passes exactly when every file matches the
pattern. -/
theorem checkPycontrolFilenames_ok_iff (sessionName ext : Str) : ∀ (files : List Str),
    checkPycontrolFilenames sessionName ext files = .ok () ↔
      ∀ n ∈ files, matchesPycontrolPattern sessionName ext n = true
  | [] => by simp [checkPycontrolFilenames]
  | n :: rest => by
    unfold checkPycontrolFilenames
    by_cases hm : matchesPycontrolPattern sessionName ext n = true
    · rw [if_pos hm]
      rw [checkPycontrolFilenames_ok_iff sessionName ext rest]
      constructor
      · intro h m hmem
        rcases List.mem_cons.mp hmem with hh | ht
        · rw [hh]; exact hm
        · exact h m ht
      · intro h m hmem
        exact h m (List.mem_cons_of_mem _ hmem)
    · rw [if_neg hm]
      simp only [Bool.not_eq_true] at hm
      constructor
      · intro h
        exact absurd h (by simp)
      · intro h
        rw [h n (List.mem_cons_self _ _)] at hm
        exact absurd hm (by simp)

/-- Helper: prepending a whitelisted file to the listing leaves the counted
files of every extension unchanged. -/
theorem filesWithExtNotWhitelisted_cons_whitelisted (rootFiles whitelist : List Str)
    (w : Str) (hw : w ∈ whitelist) (ext : Str) :
    filesWithExtNotWhitelisted (w :: rootFiles) whitelist ext =
      filesWithExtNotWhitelisted rootFiles whitelist ext := by
  unfold filesWithExtNotWhitelisted listFilesWithExtension
  rw [List.filter_cons]
  by_cases he : extOf w = ext
  · simp only [he, decide_True, if_true]
    rw [List.filter_cons]
    simp [hw]
  · simp [he]

/-- C7: the behavioral validation passes exactly when, after skipping
whitelisted files, the counted `.pca` files number two and the counted `.txt`
files number one and every counted file matches its pattern; whitelisted
files never affect the outcome; and every matching file is anchored on the
session name (it starts with it). -/
theorem behavioral_file_count_validation :
    (∀ (sessionName : Str) (whitelist rootFiles : List Str),
      validateBehavioralFileCounts sessionName whitelist rootFiles = .ok () ↔
        ((filesWithExtNotWhitelisted rootFiles whitelist (S ".pca")).length = 2 ∧
         (filesWithExtNotWhitelisted rootFiles whitelist (S ".txt")).length = 1 ∧
         (∀ n ∈ filesWithExtNotWhitelisted rootFiles whitelist (S ".pca"),
            matchesPycontrolPattern sessionName (S ".pca") n = true) ∧
         (∀ n ∈ filesWithExtNotWhitelisted rootFiles whitelist (S ".txt"),
            matchesPycontrolPattern sessionName (S ".txt") n = true))) ∧
    (∀ (sessionName : Str) (whitelist rootFiles : List Str) (w : Str), w ∈ whitelist →
      validateBehavioralFileCounts sessionName whitelist (w :: rootFiles) =
        validateBehavioralFileCounts sessionName whitelist rootFiles) ∧
    (∀ (sessionName ext n : Str), matchesPycontrolPattern sessionName ext n = true →
      sessionName.isPrefixOf n = true) := by
  refine ⟨?_, ?_, ?_⟩
  · intro s wl rf
    constructor
    · intro h
      unfold validateBehavioralFileCounts at h
      split at h
      · exact absurd h (by simp)
      · rename_i heq1
        split at h
        · exact absurd h (by simp)
        · rename_i heq2
          split at h
          · exact absurd h (by simp)
          · rename_i hl2
            split at h
            · exact absurd h (by simp)
            · rename_i hl1
              rw [Ne, not_not] at hl2 hl1
              exact ⟨hl2, hl1,
                (checkPycontrolFilenames_ok_iff s (S ".pca") _).mp heq1,
                (checkPycontrolFilenames_ok_iff s (S ".txt") _).mp heq2⟩
    · intro ⟨h2, h1, hp, ht⟩
      have e1 := (checkPycontrolFilenames_ok_iff s (S ".pca")
        (filesWithExtNotWhitelisted rf wl (S ".pca"))).mpr hp
      have e2 := (checkPycontrolFilenames_ok_iff s (S ".txt")
        (filesWithExtNotWhitelisted rf wl (S ".txt"))).mpr ht
      unfold validateBehavioralFileCounts
      rw [e1]
      simp only []
      rw [e2]
      simp [h2, h1]
  · intro s wl rf w hw
    unfold validateBehavioralFileCounts
    rw [filesWithExtNotWhitelisted_cons_whitelisted rf wl w hw (S ".pca"),
        filesWithExtNotWhitelisted_cons_whitelisted rf wl w hw (S ".txt")]
  · intro s ext n h
    unfold matchesPycontrolPattern at h
    exact (Bool.and_eq_true _ _ |>.mp h).1

/-- C7 witness: a concrete session root with one log file, two sensor files
and one whitelisted extra text file validates, and the characterization
applies to it. -/
theorem behavioral_file_count_validation_witness :
    validateBehavioralFileCounts (S "M011_2023_04_04_16_00") [S "comment.txt"]
      [S "M011_2023_04_04_16_00_2023-04-04-160000.txt",
       S "M011_2023_04_04_16_00_MotSen1-X.pca",
       S "M011_2023_04_04_16_00_MotSen1-Y.pca",
       S "comment.txt"] = .ok () ∧
    (filesWithExtNotWhitelisted
      [S "M011_2023_04_04_16_00_2023-04-04-160000.txt",
       S "M011_2023_04_04_16_00_MotSen1-X.pca",
       S "M011_2023_04_04_16_00_MotSen1-Y.pca",
       S "comment.txt"] [S "comment.txt"] (S ".pca")).length = 2 ∧
    (S "comment.txt") ∈ [S "comment.txt"] := by
  have hmem : (S "comment.txt") ∈ [S "comment.txt"] := List.mem_singleton.mpr rfl
  have h : validateBehavioralFileCounts (S "M011_2023_04_04_16_00") [S "comment.txt"]
      [S "M011_2023_04_04_16_00_2023-04-04-160000.txt",
       S "M011_2023_04_04_16_00_MotSen1-X.pca",
       S "M011_2023_04_04_16_00_MotSen1-Y.pca",
       S "comment.txt"] = .ok () := by rfl
  exact ⟨h, ((behavioral_file_count_validation.1 _ _ _).mp h).1, hmem⟩

/-- Helper: the last element of a list extended by one component, for any
default. -/
theorem getLastD_append_single : ∀ (l : Path) (x : Str) (d : Str),
    (l ++ [x]).getLastD d = x
  | [], _, _ => rfl
  | a :: l, x, _ => by
    rw [List.cons_append, List.getLastD_cons]
    exact getLastD_append_single l x a

/-- Helper: the name of a path extended by one component. -/
theorem nameOf_concat (l : Path) (x : Str) : nameOf (l ++ [x]) = x :=
  getLastD_append_single l x []

/-- Helper: a list is a boolean prefix of itself followed by anything. -/
theorem isPrefixOf_append_self (s t : Str) : s.isPrefixOf (s ++ t) = true :=
  List.isPrefixOf_iff_prefix.mpr ⟨t, rfl⟩

/-- Helper: the prefixed target carries the session name as a prefix of its
name. -/
theorem prefixedTarget_prefixed (s : Str) (p : Path) :
    s.isPrefixOf (nameOf (prefixedTarget s p)) = true := by
  unfold prefixedTarget
  rw [nameOf_concat]
  exact isPrefixOf_append_self s ('_' :: nameOf p)

/-- Helper: a successful lookup comes from some entry of the list. -/
theorem lookup_isSome_mem (l : List (Path × Content)) (q : Path)
    (h : (lookupFile l q).isSome = true) : ∃ c, (q, c) ∈ l := by
  induction l with
  | nil => simp [lookupFile] at h
  | cons pc rest ih =>
    unfold lookupFile at h
    split at h
    · rename_i heq
      exact ⟨pc.2, by rw [← heq]; exact List.mem_cons_self _ _⟩
    · obtain ⟨c, hc⟩ := ih h
      exact ⟨c, List.mem_cons_of_mem _ hc⟩

/-- Helper: looking up a key that the filter removed yields nothing. -/
theorem lookup_filter_ne (l : List (Path × Content)) (old : Path) :
    lookupFile (l.filter fun qc => decide (qc.1 ≠ old)) old = none := by
  induction l with
  | nil => rfl
  | cons pc rest ih =>
    rw [List.filter_cons]
    by_cases hq : pc.1 = old
    · have hd : (decide (pc.1 ≠ old)) = false := by simp [hq]
      rw [hd]
      simp only [Bool.false_eq_true, if_false]
      exact ih
    · have hd : (decide (pc.1 ≠ old)) = true := by simp [hq]
      rw [hd]
      simp only [if_true]
      unfold lookupFile
      rw [if_neg hq]
      exact ih

/-- Helper: an entry of the list makes the lookup succeed. -/
theorem mem_lookup_isSome (l : List (Path × Content)) (q : Path) (c : Content)
    (h : (q, c) ∈ l) : (lookupFile l q).isSome = true := by
  induction l with
  | nil => exact absurd h (List.not_mem_nil _)
  | cons pc rest ih =>
    unfold lookupFile
    by_cases hk : pc.1 = q
    · rw [if_pos hk]
      rfl
    · rw [if_neg hk]
      rcases List.mem_cons.mp h with hh | ht
      · rw [← hh] at hk
        exact absurd rfl hk
      · exact ih ht

/-- Helper: what a successful `renameFile` does to the state. -/
theorem renameFile_ok_facts (fs : FS) (old new : Path) (fs1 : FS)
    (h : renameFile fs old new = .ok fs1) :
    fs1.dirs = fs.dirs ∧
    (∃ c, lookupFile fs.files old = some c) ∧
    (∀ pc ∈ fs1.files, pc.1 = new ∨ pc ∈ fs.files) ∧
    (∀ q, (fs1.getFile q).isSome = true → q = new ∨ (fs.getFile q).isSome = true) ∧
    ((fs1.getFile old).isSome = true → old = new) := by
  unfold renameFile at h
  split at h
  · exact absurd h (by simp)
  · rename_i c heq
    simp only [Except.ok.injEq] at h
    subst h
    refine ⟨rfl, ⟨c, heq⟩, ?_, ?_, ?_⟩
    · intro pc hpc
      rcases List.mem_cons.mp hpc with hh | ht
      · left; rw [hh]
      · right; exact (List.mem_filter.mp ht).1
    · intro q hq
      unfold FS.getFile lookupFile at hq
      split at hq
      · rename_i hnq
        left; exact hnq.symm
      · right
        obtain ⟨c2, hc2⟩ := lookup_isSome_mem _ _ hq
        exact mem_lookup_isSome fs.files q c2 (List.mem_filter.mp hc2).1
    · intro hq
      unfold FS.getFile lookupFile at hq
      split at hq
      · rename_i hnq
        exact hnq.symm
      · rw [lookup_filter_ne fs.files old] at hq
        exact absurd hq (by simp)

/-- Helper: state facts of a successful rename pass: directories untouched,
files only grow by session-prefixed names, every listed file that survives is
prefixed, and well-formedness is preserved. -/
theorem RFS_ok_facts (s : Str) : ∀ (L : List Path) (fs fs1 : FS) (tr : List (Path × Path)),
    renameFilesToStartWithSessionName s fs L = .ok (fs1, tr) →
    fs1.dirs = fs.dirs ∧
    (∀ q, (fs1.getFile q).isSome = true →
      (fs.getFile q).isSome = true ∨ s.isPrefixOf (nameOf q) = true) ∧
    (∀ q ∈ L, (fs1.getFile q).isSome = true → s.isPrefixOf (nameOf q) = true) ∧
    (WFfiles fs → WFfiles fs1)
  | [], fs, fs1, tr, h => by
    simp only [renameFilesToStartWithSessionName, Except.ok.injEq, Prod.mk.injEq] at h
    rw [← h.1]
    exact ⟨rfl, fun q hq => Or.inl hq, fun q hq => absurd hq (List.not_mem_nil q), id⟩
  | p :: rest, fs, fs1, tr, h => by
    unfold renameFilesToStartWithSessionName at h
    split at h
    · rename_i hp
      have ih := RFS_ok_facts s rest fs fs1 tr h
      refine ⟨ih.1, ih.2.1, ?_, ih.2.2.2⟩
      intro q hq hsome
      rcases List.mem_cons.mp hq with hh | ht
      · rw [hh]; exact hp
      · exact ih.2.2.1 q ht hsome
    · rename_i hp
      split at h
      · exact absurd h (by simp)
      · rename_i hex
        split at h
        · exact absurd h (by simp)
        · rename_i fsm heq
          split at h
          · exact absurd h (by simp)
          · rename_i fs2 tr2 heq2
            simp only [Except.ok.injEq, Prod.mk.injEq] at h
            obtain ⟨h1, _⟩ := h
            rw [h1] at heq2
            have hren := renameFile_ok_facts fs p (prefixedTarget s p) fsm heq
            have ih := RFS_ok_facts s rest fsm fs1 tr2 heq2
            refine ⟨?_, ?_, ?_, ?_⟩
            · rw [ih.1, hren.1]
            · intro q hq
              rcases ih.2.1 q hq with hm | hpref
              · rcases hren.2.2.2.1 q hm with hnew | hfs
                · right; rw [hnew]; exact prefixedTarget_prefixed s p
                · left; exact hfs
              · right; exact hpref
            · intro q hq hsome
              rcases List.mem_cons.mp hq with hh | ht
              · subst hh
                rcases ih.2.1 q hsome with hm | hpref
                · have hqnew := hren.2.2.2.2 hm
                  have hpref2 := prefixedTarget_prefixed s q
                  rw [← hqnew] at hpref2
                  exact absurd hpref2 hp
                · exact absurd hpref hp
              · exact ih.2.2.1 q ht hsome
            · intro hwf
              apply ih.2.2.2
              intro pc hpc
              rcases hren.2.2.1 pc hpc with hnew | hmem
              · rw [hren.1, hnew]
                have hex2 : fs.existsPath (prefixedTarget s p) = false := by
                  simpa using hex
                unfold FS.existsPath at hex2
                exact (Bool.or_eq_false_iff.mp hex2).2
              · rw [hren.1]
                exact hwf pc hmem

/-- Helper: a rename pass over files that all already carry the session-name
prefix performs no rename and returns the state unchanged. -/
theorem RFS_all_prefixed (s : Str) : ∀ (L : List Path) (fs : FS),
    (∀ p ∈ L, s.isPrefixOf (nameOf p) = true) →
    renameFilesToStartWithSessionName s fs L = .ok (fs, [])
  | [], _, _ => rfl
  | p :: rest, fs, h => by
    unfold renameFilesToStartWithSessionName
    rw [if_pos (h p (List.mem_cons_self p rest))]
    exact RFS_all_prefixed s rest fs fun q hq => h q (List.mem_cons_of_mem _ hq)

/-- Helper: on a well-formed filesystem, a successful rename pass implies
that no unprefixed listed path was a directory. -/
theorem RFS_ok_no_unprefixed_dirs (s : Str) : ∀ (L : List Path) (fs fs1 : FS)
    (tr : List (Path × Path)),
    renameFilesToStartWithSessionName s fs L = .ok (fs1, tr) → WFfiles fs →
    ∀ q ∈ L, s.isPrefixOf (nameOf q) = false → memP fs.dirs q = false
  | [], _, _, _, _, _, q, hq, _ => absurd hq (List.not_mem_nil q)
  | p :: rest, fs, fs1, tr, h, hwf, q, hq, hqp => by
    unfold renameFilesToStartWithSessionName at h
    split at h
    · rename_i hp
      rcases List.mem_cons.mp hq with hh | ht
      · rw [hh, hp] at hqp
        exact absurd hqp (by simp)
      · exact RFS_ok_no_unprefixed_dirs s rest fs fs1 tr h hwf q ht hqp
    · rename_i hp
      split at h
      · exact absurd h (by simp)
      · rename_i hex
        split at h
        · exact absurd h (by simp)
        · rename_i fsm heq
          split at h
          · exact absurd h (by simp)
          · rename_i fs2 tr2 heq2
            simp only [Except.ok.injEq, Prod.mk.injEq] at h
            obtain ⟨h1, _⟩ := h
            rw [h1] at heq2
            have hren := renameFile_ok_facts fs p (prefixedTarget s p) fsm heq
            rcases List.mem_cons.mp hq with hh | ht
            · subst hh
              obtain ⟨c, hc⟩ := hren.2.1
              obtain ⟨c2, hc2⟩ := lookup_isSome_mem fs.files q (by rw [hc]; rfl)
              exact hwf (q, c2) hc2
            · have hwfm : WFfiles fsm := by
                intro pc hpc
                rcases hren.2.2.1 pc hpc with hnew | hmem
                · rw [hren.1, hnew]
                  have hex2 : fs.existsPath (prefixedTarget s p) = false := by
                    simpa using hex
                  unfold FS.existsPath at hex2
                  exact (Bool.or_eq_false_iff.mp hex2).2
                · rw [hren.1]
                  exact hwf pc hmem
              have := RFS_ok_no_unprefixed_dirs s rest fsm fs1 tr2 heq2 hwfm q ht hqp
              rw [hren.1] at this
              exact this

/-- Helper: the only exception `renameFile` raises. -/
theorem renameFile_error_etype (fs : FS) (old new : Path) (e : PyErr)
    (h : renameFile fs old new = .error e) : e.etype = "FileNotFoundError" := by
  unfold renameFile at h
  split at h
  · simp only [Except.error.injEq] at h
    rw [← h]
  · exact absurd h (by simp)

/-- C9 amended: renaming a single file is a no-op when its name already
carries the session-name prefix; when a file's prefixed target already exists
the pass raises `FileExistsError` without renaming that file; but the abort
happens at the failing file, so every error leaves the pass in the state
reached by successfully processing the files before the failing one — files
renamed earlier in the same pass stay renamed. -/
theorem rename_pass_abort_semantics :
    (∀ (s : Str) (fs : FS) (p : Path) (rest : List Path),
      s.isPrefixOf (nameOf p) = true →
      renameFilesToStartWithSessionName s fs (p :: rest) =
        renameFilesToStartWithSessionName s fs rest) ∧
    (∀ (s : Str) (fs : FS) (p : Path) (rest : List Path),
      s.isPrefixOf (nameOf p) = false →
      fs.existsPath (prefixedTarget s p) = true →
      renameFilesToStartWithSessionName s fs (p :: rest) =
        .error (⟨"FileExistsError", "Aborting renaming. Target already exists: ",
          prefixedTarget s p⟩, fs)) ∧
    (∀ (s : Str) (L : List Path) (fs fs1 : FS) (e : PyErr),
      renameFilesToStartWithSessionName s fs L = .error (e, fs1) →
      (e.etype = "FileExistsError" ∨ e.etype = "FileNotFoundError") ∧
      ∃ pre p post tr, L = pre ++ p :: post ∧
        renameFilesToStartWithSessionName s fs pre = .ok (fs1, tr) ∧
        s.isPrefixOf (nameOf p) = false) := by
  have hdec : ∀ (s : Str) (L : List Path) (fs fs1 : FS) (e : PyErr),
      renameFilesToStartWithSessionName s fs L = .error (e, fs1) →
      (e.etype = "FileExistsError" ∨ e.etype = "FileNotFoundError") ∧
      ∃ pre p post tr, L = pre ++ p :: post ∧
        renameFilesToStartWithSessionName s fs pre = .ok (fs1, tr) ∧
        s.isPrefixOf (nameOf p) = false := by
    intro s L
    induction L with
    | nil =>
      intro fs fs1 e h
      exact absurd h (by simp [renameFilesToStartWithSessionName])
    | cons p rest ih =>
      intro fs fs1 e h
      unfold renameFilesToStartWithSessionName at h
      split at h
      · rename_i hp
        obtain ⟨hty, pre, p2, post, tr, hL, hok, hp2⟩ := ih fs fs1 e h
        refine ⟨hty, p :: pre, p2, post, tr, by rw [hL, List.cons_append], ?_, hp2⟩
        unfold renameFilesToStartWithSessionName
        rw [if_pos hp]
        exact hok
      · rename_i hp
        have hpf : s.isPrefixOf (nameOf p) = false := Bool.eq_false_iff.mpr hp
        split at h
        · rename_i hex
          simp only [Except.error.injEq, Prod.mk.injEq] at h
          refine ⟨?_, [], p, rest, [], rfl, ?_, hpf⟩
          · left; rw [← h.1]
          · rw [← h.2]
            rfl
        · rename_i hex
          split at h
          · rename_i e2 heq
            simp only [Except.error.injEq, Prod.mk.injEq] at h
            refine ⟨?_, [], p, rest, [], rfl, ?_, hpf⟩
            · right
              rw [← h.1]
              exact renameFile_error_etype fs p (prefixedTarget s p) e2 heq
            · rw [← h.2]
              rfl
          · rename_i fsm heq
            split at h
            · rename_i e2 heq2
              simp only [Except.error.injEq] at h
              rw [h] at heq2
              obtain ⟨hty, pre, p2, post, tr, hL, hok, hp2⟩ := ih fsm fs1 e heq2
              refine ⟨hty, p :: pre, p2, post,
                (p, prefixedTarget s p) :: tr, by rw [hL, List.cons_append], ?_, hp2⟩
              unfold renameFilesToStartWithSessionName
              rw [if_neg hp, if_neg hex]
              simp only [heq]
              simp only [hok]
            · exact absurd h (by simp)
  refine ⟨?_, ?_, hdec⟩
  · intro s fs p rest h
    conv_lhs => unfold renameFilesToStartWithSessionName
    rw [if_pos h]
  · intro s fs p rest hp hex
    unfold renameFilesToStartWithSessionName
    have hnp : ¬ s.isPrefixOf (nameOf p) = true := by simp [hp]
    rw [if_neg hnp, if_pos hex]

/-- C9 counterexample: the concrete aborted pass raises `FileExistsError` at
the second file, but the first file of the same pass has already been renamed
at that moment — the pass does not fail before mutating. -/
theorem rename_pass_mutates_before_abort :
    renameFilesToStartWithSessionName (S "ses") exRenFs
      [[S "ses", S "u.txt"], [S "ses", S "v.txt"]] = .error (exRenErr, exRenFsAfter) ∧
    exRenFsAfter ≠ exRenFs ∧
    (exRenFsAfter.getFile [S "ses", S "ses_u.txt"]).isSome = true ∧
    exRenFs.getFile [S "ses", S "ses_u.txt"] = none := by
  refine ⟨by rfl, by decide, by decide, by decide⟩

/-- C9 witness: the abort decomposition applied to the concrete aborted
pass. -/
theorem rename_pass_abort_semantics_witness :
    renameFilesToStartWithSessionName (S "ses") exRenFs
      [[S "ses", S "u.txt"], [S "ses", S "v.txt"]] = .error (exRenErr, exRenFsAfter) ∧
    ((exRenErr.etype = "FileExistsError" ∨ exRenErr.etype = "FileNotFoundError") ∧
      ∃ pre p post tr,
        ([[S "ses", S "u.txt"], [S "ses", S "v.txt"]] : List Path) = pre ++ p :: post ∧
        renameFilesToStartWithSessionName (S "ses") exRenFs pre = .ok (exRenFsAfter, tr) ∧
        (S "ses").isPrefixOf (nameOf p) = false) := by
  have h : renameFilesToStartWithSessionName (S "ses") exRenFs
      [[S "ses", S "u.txt"], [S "ses", S "v.txt"]] = .error (exRenErr, exRenFsAfter) := by rfl
  exact ⟨h, rename_pass_abort_semantics.2.2 (S "ses") _ exRenFs exRenFsAfter exRenErr h⟩

/-- Helper: a path is listed exactly when a file exists there. -/
theorem filePaths_iff_isSome (fs : FS) (q : Path) :
    q ∈ filePaths fs ↔ (fs.getFile q).isSome = true := by
  constructor
  · intro h
    obtain ⟨pc, hpc, hfst⟩ := List.mem_map.mp h
    have : (q, pc.2) ∈ fs.files := by
      rw [← hfst]
      exact hpc
    exact mem_lookup_isSome fs.files q pc.2 this
  · intro h
    obtain ⟨c, hc⟩ := lookup_isSome_mem fs.files q h
    exact List.mem_map.mpr ⟨(q, c), hc, rfl⟩

/-- Helper: every path found by the whitelist scan exists, and it is either a
bare whitelisted root filename or already session-prefixed. -/
theorem findWl_sound (fs : FS) (sp : Path) : ∀ (wl : List Str) (q : Path),
    q ∈ findWhitelistedFilesInRoot fs sp wl →
    fs.existsPath q = true ∧
      ((∃ w ∈ wl, q = sp ++ [w]) ∨ (nameOf sp).isPrefixOf (nameOf q) = true)
  | [], q, h => absurd h (List.not_mem_nil q)
  | w :: rest, q, h => by
    unfold findWhitelistedFilesInRoot at h
    rcases List.mem_append.mp h with h1 | h2
    · rcases List.mem_append.mp h1 with hb | hp
      · split at hb
        · rename_i hex
          rcases List.mem_singleton.mp hb with rfl
          exact ⟨hex, Or.inl ⟨w, List.mem_cons_self _ _, rfl⟩⟩
        · exact absurd hb (List.not_mem_nil q)
      · split at hp
        · rename_i hex
          rcases List.mem_singleton.mp hp with rfl
          refine ⟨hex, Or.inr ?_⟩
          rw [nameOf_concat]
          exact isPrefixOf_append_self (nameOf sp) ('_' :: w)
        · exact absurd hp (List.not_mem_nil q)
    · obtain ⟨hex, hcase⟩ := findWl_sound fs sp rest q h2
      refine ⟨hex, ?_⟩
      rcases hcase with ⟨w2, hw2, hq⟩ | hpref
      · exact Or.inl ⟨w2, List.mem_cons_of_mem _ hw2, hq⟩
      · exact Or.inr hpref

/-- Helper: an existing bare whitelisted root file is found by the scan. -/
theorem findWl_complete (fs : FS) (sp : Path) : ∀ (wl : List Str) (w : Str),
    w ∈ wl → fs.existsPath (sp ++ [w]) = true →
    sp ++ [w] ∈ findWhitelistedFilesInRoot fs sp wl
  | [], w, hw, _ => absurd hw (List.not_mem_nil w)
  | w0 :: rest, w, hw, hex => by
    unfold findWhitelistedFilesInRoot
    rcases List.mem_cons.mp hw with hh | ht
    · subst hh
      apply List.mem_append.mpr
      left
      apply List.mem_append.mpr
      left
      rw [if_pos hex]
      exact List.mem_singleton.mpr rfl
    · apply List.mem_append.mpr
      right
      exact findWl_complete fs sp rest w ht hex

/-- Helper: state facts of a successful extension loop: directories
untouched, files only grow by prefixed names, well-formedness preserved, and
re-scanning the final state for any processed extension finds only prefixed
files. -/
theorem renameExtraLoop_facts (sp : Path) : ∀ (exts : List Str) (fs fs1 : FS)
    (tr : List (Path × Path)),
    renameExtraLoop sp fs exts = .ok (fs1, tr) →
    fs1.dirs = fs.dirs ∧
    (∀ q, (fs1.getFile q).isSome = true →
      (fs.getFile q).isSome = true ∨ (nameOf sp).isPrefixOf (nameOf q) = true) ∧
    (WFfiles fs → WFfiles fs1) ∧
    (∀ ext ∈ exts, ∀ q ∈ findExtraFilesWithExtension fs1 sp ext,
      (nameOf sp).isPrefixOf (nameOf q) = true)
  | [], fs, fs1, tr, h => by
    simp only [renameExtraLoop, Except.ok.injEq, Prod.mk.injEq] at h
    rw [← h.1]
    exact ⟨rfl, fun q hq => Or.inl hq, id, fun
      ext hext => absurd hext (List.not_mem_nil ext)⟩
  | ext :: rest, fs, fs1, tr, h => by
    unfold renameExtraLoop at h
    split at h
    · exact absurd h (by simp)
    · rename_i fsm tr1 heq
      split at h
      · exact absurd h (by simp)
      · rename_i fs2 tr2 heq2
        simp only [Except.ok.injEq, Prod.mk.injEq] at h
        obtain ⟨h1, _⟩ := h
        rw [h1] at heq2
        unfold renameExtraFilesWithExtension at heq
        have hA := RFS_ok_facts (nameOf sp) (findExtraFilesWithExtension fs sp ext)
          fs fsm tr1 heq
        have ih := renameExtraLoop_facts sp rest fsm fs1 tr2 heq2
        refine ⟨ih.1.trans hA.1, ?_, fun hwf => ih.2.2.1 (hA.2.2.2 hwf), ?_⟩
        · intro q hq
          rcases ih.2.1 q hq with hm | hpref
          · exact hA.2.1 q hm
          · exact Or.inr hpref
        · intro e he q hqmem
          rcases List.mem_cons.mp he with hh | ht
          · subst hh
            by_cases hpref : (nameOf sp).isPrefixOf (nameOf q) = true
            · exact hpref
            · obtain ⟨hq1, hprops⟩ := List.mem_filter.mp hqmem
              have hsome1 : (fs1.getFile q).isSome = true := (filePaths_iff_isSome fs1 q).mp hq1
              have hsomem : (fsm.getFile q).isSome = true := by
                rcases ih.2.1 q hsome1 with hm | hp2
                · exact hm
                · exact absurd hp2 hpref
              have hsome0 : (fs.getFile q).isSome = true := by
                rcases hA.2.1 q hsomem with hm | hp2
                · exact hm
                · exact absurd hp2 hpref
              have hqL : q ∈ findExtraFilesWithExtension fs sp e :=
                List.mem_filter.mpr ⟨(filePaths_iff_isSome fs q).mpr hsome0, hprops⟩
              exact hA.2.2.1 q hqL hsomem
          · exact ih.2.2.2 e ht q hqmem

/-- Helper: state facts of one successful full extra-file rename pass on a
well-formed filesystem: re-scanning the resulting state finds only
session-prefixed files, for the whitelist and for every extension. -/
theorem renameExtraFilesInSession_facts (fs : FS) (sp : Path) (wl exts : List Str)
    (fs1 : FS) (tr : List (Path × Path))
    (h : renameExtraFilesInSession fs sp wl exts = .ok (fs1, tr)) (hwf : WFfiles fs) :
    fs1.dirs = fs.dirs ∧ WFfiles fs1 ∧
    (∀ q ∈ findWhitelistedFilesInRoot fs1 sp wl,
      (nameOf sp).isPrefixOf (nameOf q) = true) ∧
    (∀ ext ∈ exts, ∀ q ∈ findExtraFilesWithExtension fs1 sp ext,
      (nameOf sp).isPrefixOf (nameOf q) = true) := by
  unfold renameExtraFilesInSession at h
  split at h
  · exact absurd h (by simp)
  · rename_i fsa tra heqA
    split at h
    · exact absurd h (by simp)
    · rename_i fs2 trb heqB
      simp only [Except.ok.injEq, Prod.mk.injEq] at h
      obtain ⟨h1, _⟩ := h
      rw [h1] at heqB
      unfold renameWhitelistedFilesInRoot at heqA
      have hA := RFS_ok_facts (nameOf sp) (findWhitelistedFilesInRoot fs sp wl)
        fs fsa tra heqA
      have hB := renameExtraLoop_facts sp exts fsa fs1 trb heqB
      have hwfa : WFfiles fsa := hA.2.2.2 hwf
      refine ⟨hB.1.trans hA.1, hB.2.2.1 hwfa, ?_, hB.2.2.2⟩
      intro q hq
      obtain ⟨hex1, hcase⟩ := findWl_sound fs1 sp wl q hq
      rcases hcase with ⟨w, hw, hqw⟩ | hpref
      · by_cases hpref : (nameOf sp).isPrefixOf (nameOf q) = true
        · exact hpref
        · unfold FS.existsPath at hex1
          rcases Bool.or_eq_true_iff.mp hex1 with hsome1 | hdir1
          · have hsomea : (fsa.getFile q).isSome = true := by
              rcases hB.2.1 q hsome1 with hm | hp2
              · exact hm
              · exact absurd hp2 hpref
            have hsome0 : (fs.getFile q).isSome = true := by
              rcases hA.2.1 q hsomea with hm | hp2
              · exact hm
              · exact absurd hp2 hpref
            have hqL : q ∈ findWhitelistedFilesInRoot fs sp wl := by
              rw [hqw]
              apply findWl_complete fs sp wl w hw
              rw [← hqw]
              unfold FS.existsPath
              rw [hsome0]
              rfl
            exact hA.2.2.1 q hqL hsomea
          · have hdir0 : memP fs.dirs q = true := by
              rw [← hA.1, ← hB.1]
              exact hdir1
            have hqL : q ∈ findWhitelistedFilesInRoot fs sp wl := by
              rw [hqw]
              apply findWl_complete fs sp wl w hw
              rw [← hqw]
              unfold FS.existsPath
              rw [hdir0]
              simp
            have := RFS_ok_no_unprefixed_dirs (nameOf sp) _ fs fsa tra heqA hwf q hqL
              (Bool.eq_false_iff.mpr hpref)
            rw [this] at hdir0
            exact absurd hdir0 (by simp)
      · exact hpref

/-- Helper: an extension loop over scans that find only prefixed files is an
exact no-op. -/
theorem renameExtraLoop_all_prefixed (sp : Path) : ∀ (exts : List Str) (fs : FS),
    (∀ ext ∈ exts, ∀ q ∈ findExtraFilesWithExtension fs sp ext,
      (nameOf sp).isPrefixOf (nameOf q) = true) →
    renameExtraLoop sp fs exts = .ok (fs, [])
  | [], _, _ => rfl
  | ext :: rest, fs, h => by
    have h1 := RFS_all_prefixed (nameOf sp) (findExtraFilesWithExtension fs sp ext) fs
      (h ext (List.mem_cons_self _ _))
    have h2 := renameExtraLoop_all_prefixed sp rest fs
      fun e he => h e (List.mem_cons_of_mem _ he)
    unfold renameExtraLoop renameExtraFilesWithExtension
    simp [h1, h2]

/-- Helper: running the full extra-file rename pass a second time right after
a successful run on a well-formed filesystem performs zero renames and leaves
the filesystem unchanged. -/
theorem renameExtraFilesInSession_idempotent (fs : FS) (sp : Path) (wl exts : List Str)
    (fs1 : FS) (tr : List (Path × Path))
    (hwf : WFfiles fs) (h : renameExtraFilesInSession fs sp wl exts = .ok (fs1, tr)) :
    renameExtraFilesInSession fs1 sp wl exts = .ok (fs1, []) := by
  obtain ⟨_, _, hwl, hexts⟩ := renameExtraFilesInSession_facts fs sp wl exts fs1 tr h hwf
  have h1 := RFS_all_prefixed (nameOf sp) (findWhitelistedFilesInRoot fs1 sp wl) fs1 hwl
  have h2 := renameExtraLoop_all_prefixed sp exts fs1 hexts
  unfold renameExtraFilesInSession renameWhitelistedFilesInRoot
  simp [h1, h2]

/-- Helper: a list is a boolean suffix of anything followed by itself. -/
theorem isSuffixOf_append_self (t l : Str) : t.isSuffixOf (l ++ t) = true :=
  List.isSuffixOf_iff_suffix.mpr (List.suffix_append l t)

/-- Helper: what the wrong-filenames repair loop does to the state: the
directories are untouched, and every file afterwards either survived outside
the processed list or is a renamed video with the expected name start and the
video extension, sitting in the same folder as some processed file. -/
theorem renameVideosInFolder_facts (sp : Path) : ∀ (L : List Path) (fs fs1 : FS)
    (tr : List (Path × Path)),
    renameVideosInFolder sp fs L = .ok (fs1, tr) →
    fs1.dirs = fs.dirs ∧
    (∀ q, (fs1.getFile q).isSome = true →
      ((fs.getFile q).isSome = true ∧ q ∉ L) ∨
      (∃ p ∈ L, q.dropLast = p.dropLast ∧
        (expectedVideoFilenameStart sp).isPrefixOf (nameOf q) = true ∧
        (S ".avi").isSuffixOf (nameOf q) = true))
  | [], fs, fs1, tr, h => by
    simp only [renameVideosInFolder, Except.ok.injEq, Prod.mk.injEq] at h
    rw [← h.1]
    exact ⟨rfl, fun q hq => Or.inl ⟨hq, List.not_mem_nil q⟩⟩
  | p :: rest, fs, fs1, tr, h => by
    unfold renameVideosInFolder at h
    split at h
    · exact absurd h (by simp)
    · rename_i cid hcid
      split at h
      · exact absurd h (by simp)
      · rename_i hex
        split at h
        · exact absurd h (by simp)
        · rename_i fsm heq
          split at h
          · exact absurd h (by simp)
          · rename_i fs2 tr2 heq2
            simp only [Except.ok.injEq, Prod.mk.injEq] at h
            obtain ⟨h1, _⟩ := h
            rw [h1] at heq2
            have hren := renameFile_ok_facts fs p
              (p.dropLast ++ [expectedVideoFilenameStart sp ++ natDigits cid ++ S ".avi"])
              fsm heq
            have ih := renameVideosInFolder_facts sp rest fsm fs1 tr2 heq2
            have hshape : ∀ q : Path,
                q = p.dropLast ++ [expectedVideoFilenameStart sp ++ natDigits cid ++ S ".avi"] →
                q.dropLast = p.dropLast ∧
                (expectedVideoFilenameStart sp).isPrefixOf (nameOf q) = true ∧
                (S ".avi").isSuffixOf (nameOf q) = true := by
              intro q hq
              refine ⟨?_, ?_, ?_⟩
              · rw [hq, List.dropLast_concat]
              · rw [hq, nameOf_concat, List.append_assoc]
                exact isPrefixOf_append_self (expectedVideoFilenameStart sp)
                  (natDigits cid ++ S ".avi")
              · rw [hq, nameOf_concat]
                exact isSuffixOf_append_self (S ".avi")
                  (expectedVideoFilenameStart sp ++ natDigits cid)
            refine ⟨ih.1.trans hren.1, ?_⟩
            intro q hq
            rcases ih.2 q hq with ⟨hsm, hnr⟩ | ⟨p2, hp2, hdl, hpref, hsuf⟩
            · rcases hren.2.2.2.1 q hsm with hnew | hold
              · exact Or.inr ⟨p, List.mem_cons_self _ _, hshape q hnew⟩
              · by_cases hqp : q = p
                · right
                  have hpn := hren.2.2.2.2 (hqp ▸ hsm)
                  exact ⟨p, List.mem_cons_self _ _, hshape q (hqp ▸ hpn)⟩
                · left
                  refine ⟨hold, ?_⟩
                  intro hmem
                  rcases List.mem_cons.mp hmem with hh | ht
                  · exact hqp hh
                  · exact hnr ht
            · exact Or.inr ⟨p2, List.mem_cons_of_mem _ hp2, hdl, hpref, hsuf⟩

/-- Helper: membership in the stray-video list. -/
theorem mem_strayAvis_iff (fs : FS) (sp : Path) (q : Path) :
    q ∈ strayAvis fs sp ↔
      (fs.getFile q).isSome = true ∧ isUnderDir sp q = true ∧
      (S ".avi").isSuffixOf (nameOf q) = true ∧ q.dropLast ≠ expectedVideoFolderPath sp := by
  unfold strayAvis aviFilesUnder
  rw [List.mem_filter, List.mem_filter, filePaths_iff_isSome]
  simp [Bool.and_eq_true, and_assoc]

/-- Helper: membership in the stray-sidecar list. -/
theorem mem_strayMetadata_iff (fs : FS) (sp : Path) (q : Path) :
    q ∈ strayMetadata fs sp ↔
      (fs.getFile q).isSome = true ∧ isUnderDir sp q = true ∧
      nameOf q = S "metadata.csv" ∧ q.dropLast ≠ expectedVideoFolderPath sp := by
  unfold strayMetadata
  rw [List.mem_filter, filePaths_iff_isSome]
  simp [Bool.and_eq_true, and_assoc]

/-- Helper: membership in the video-children list. -/
theorem mem_aviChildren_iff (fs : FS) (sp : Path) (q : Path) :
    q ∈ aviChildren fs sp ↔
      (fs.getFile q).isSome = true ∧ q.dropLast = expectedVideoFolderPath sp ∧
      (S ".avi").isSuffixOf (nameOf q) = true := by
  unfold aviChildren
  rw [List.mem_filter, filePaths_iff_isSome]
  simp [Bool.and_eq_true, and_assoc]

/-- Helper: membership in the badly-named-video list. -/
theorem mem_badNamedAvis_iff (fs : FS) (sp : Path) (q : Path) :
    q ∈ badNamedAvis fs sp ↔
      (fs.getFile q).isSome = true ∧ q.dropLast = expectedVideoFolderPath sp ∧
      (S ".avi").isSuffixOf (nameOf q) = true ∧
      (expectedVideoFilenameStart sp).isPrefixOf (nameOf q) = false := by
  unfold badNamedAvis
  rw [List.mem_filter, mem_aviChildren_iff]
  simp [Bool.and_eq_true, and_assoc]

/-- Helper: a wrong-filename validation error means the stray checks passed
and some badly-named video child exists. -/
theorem validate_videos_wrongFilename (fs : FS) (sp : Path) (e : PyErr)
    (h : validateRawVideosOfSession fs sp = .error e) (hm : e.msg = msgWrongFilename) :
    strayAvis fs sp = [] ∧ strayMetadata fs sp = [] ∧
    aviChildren fs sp ≠ [] ∧ badNamedAvis fs sp ≠ [] := by
  unfold validateRawVideosOfSession at h
  split at h
  · simp only [Except.error.injEq] at h
    rw [← h] at hm
    exact absurd hm (by decide)
  · rename_i h1
    split at h
    · simp only [Except.error.injEq] at h
      rw [← h] at hm
      exact absurd hm (by decide)
    · rename_i h2
      split at h
      · exact absurd h (by simp)
      · split at h
        · simp only [Except.error.injEq] at h
          rw [← h] at hm
          exact absurd hm (by decide)
        · rename_i h4
          split at h
          · rename_i h5
            exact ⟨not_not.mp h1, not_not.mp h2, h4, h5⟩
          · rename_i h5
            split at h
            · simp only [Except.error.injEq] at h
              rw [← h] at hm
              exact absurd hm (by decide)
            · split at h
              · simp only [Except.error.injEq] at h
                rw [← h] at hm
                exact absurd hm (by decide)
              · exact absurd h (by simp)

/-- Helper: when there are no stray videos, no stray sidecar and no
badly-named video child, the validator never raises one of the two errors the
renamer repairs. -/
theorem validate_videos_no_repairable_error (fs : FS) (sp : Path)
    (h1 : strayAvis fs sp = []) (h2 : strayMetadata fs sp = [])
    (h3 : badNamedAvis fs sp = []) :
    ∀ e, validateRawVideosOfSession fs sp = .error e →
      msgHasUnexpectedLocation e.msg = false ∧ e.msg ≠ msgWrongFilename := by
  intro e h
  unfold validateRawVideosOfSession at h
  rw [if_neg (by simp [h1]), if_neg (by simp [h2])] at h
  split at h
  · exact absurd h (by simp)
  · split at h
    · simp only [Except.error.injEq] at h
      rw [← h]
      exact ⟨by decide, by decide⟩
    · rw [if_neg (by simp [h3])] at h
      split at h
      · simp only [Except.error.injEq] at h
        rw [← h]
        exact ⟨by decide, by decide⟩
      · split at h
        · simp only [Except.error.injEq] at h
          rw [← h]
          exact ⟨by decide, by decide⟩
        · exact absurd h (by simp)

/-- Helper: after the wrong-filenames repair succeeds, the stray checks still
pass and no badly-named video child remains. -/
theorem renameVideosInFolder_clears (fs fs1 : FS) (sp : Path)
    (tr : List (Path × Path))
    (hA : strayAvis fs sp = []) (hM : strayMetadata fs sp = [])
    (hrep : renameVideosInFolder sp fs (aviChildren fs sp) = .ok (fs1, tr)) :
    strayAvis fs1 sp = [] ∧ strayMetadata fs1 sp = [] ∧ badNamedAvis fs1 sp = [] := by
  have facts := renameVideosInFolder_facts sp (aviChildren fs sp) fs fs1 tr hrep
  refine ⟨?_, ?_, ?_⟩
  · rw [List.eq_nil_iff_forall_not_mem]
    intro q hq
    rw [mem_strayAvis_iff] at hq
    obtain ⟨hsome, hund, hsuf, hne⟩ := hq
    rcases facts.2 q hsome with ⟨hold, _⟩ | ⟨p, hp, hdl, _, _⟩
    · have : q ∈ strayAvis fs sp := (mem_strayAvis_iff fs sp q).mpr ⟨hold, hund, hsuf, hne⟩
      rw [hA] at this
      exact List.not_mem_nil q this
    · have hpd := ((mem_aviChildren_iff fs sp p).mp hp).2.1
      exact hne (hdl.trans hpd)
  · rw [List.eq_nil_iff_forall_not_mem]
    intro q hq
    rw [mem_strayMetadata_iff] at hq
    obtain ⟨hsome, hund, hname, hne⟩ := hq
    rcases facts.2 q hsome with ⟨hold, _⟩ | ⟨p, hp, hdl, _, _⟩
    · have : q ∈ strayMetadata fs sp :=
        (mem_strayMetadata_iff fs sp q).mpr ⟨hold, hund, hname, hne⟩
      rw [hM] at this
      exact List.not_mem_nil q this
    · have hpd := ((mem_aviChildren_iff fs sp p).mp hp).2.1
      exact hne (hdl.trans hpd)
  · rw [List.eq_nil_iff_forall_not_mem]
    intro q hq
    rw [mem_badNamedAvis_iff] at hq
    obtain ⟨hsome, hdrop, hsuf, hnpref⟩ := hq
    rcases facts.2 q hsome with ⟨hold, hnotin⟩ | ⟨p, hp, hdl, hpref, _⟩
    · exact hnotin ((mem_aviChildren_iff fs sp q).mpr ⟨hold, hdrop, hsuf⟩)
    · rw [hpref] at hnpref
      exact Bool.true_eq_false.mp hnpref

/-- Helper: whenever the video renamer returns successfully, re-validating the
resulting state can only raise errors the renamer does not repair: neither a
"file in unexpected location" message nor the wrong-filename message. -/
theorem renameVideosAux_ok_no_repairable (subjectName : Str) (sp : Path) (fuel : Nat) :
    ∀ (fs fs1 : FS) (tr : List (Path × Path)),
    renameRawVideosAux subjectName sp fuel fs = .ok (fs1, tr) →
    ∀ e, validateRawVideosOfSession fs1 sp = .error e →
      msgHasUnexpectedLocation e.msg = false ∧ e.msg ≠ msgWrongFilename := by
  induction fuel with
  | zero =>
    intro fs fs1 tr h
    exact absurd h (by simp [renameRawVideosAux])
  | succ fuel ih =>
    intro fs fs1 tr h
    unfold renameRawVideosAux at h
    split at h
    · exact absurd h (by simp)
    · split at h
      · rename_i vres hval
        simp only [Except.ok.injEq, Prod.mk.injEq] at h
        obtain ⟨h1, _⟩ := h
        rw [← h1]
        intro e he
        rw [hval] at he
        exact absurd he (by simp)
      · rename_i e0 hval
        split at h
        · split at h
          · rename_i found hfound
            split at h
            · exact absurd h (by simp)
            · split at h
              · split at h
                · exact absurd h (by simp)
                · rename_i fsp heqmove
                  split at h
                  · exact absurd h (by simp)
                  · split at h
                    · exact absurd h (by simp)
                    · rename_i fs2 heqren
                      split at h
                      · exact absurd h (by simp)
                      · rename_i fs3 tr3 heqrec
                        simp only [Except.ok.injEq, Prod.mk.injEq] at h
                        obtain ⟨h1, _⟩ := h
                        rw [← h1]
                        exact ih fs2 fs3 tr3 heqrec
              · split at h
                · exact absurd h (by simp)
                · rename_i fs3 tr3 heqrec
                  simp only [Except.ok.injEq, Prod.mk.injEq] at h
                  obtain ⟨h1, _⟩ := h
                  rw [← h1]
                  exact ih _ fs3 tr3 heqrec
          · exact absurd h (by simp)
        · split at h
          · rename_i hmsg
            have hv := validate_videos_wrongFilename fs sp e0 hval hmsg
            have hc := renameVideosInFolder_clears fs fs1 sp tr hv.1 hv.2.1 h
            exact validate_videos_no_repairable_error fs1 sp hc.1 hc.2.1 hc.2.2
          · exact absurd h (by simp)

/-- Helper: a successful renamer run implies the session folder name passed
the naming prescreen. -/
theorem renameVideosAux_ok_prescreen (subjectName : Str) (sp : Path) (fuel : Nat)
    (fs fs1 : FS) (tr : List (Path × Path))
    (h : renameRawVideosAux subjectName sp (fuel + 1) fs = .ok (fs1, tr)) :
    prescreenFolderName (nameOf sp) subjectName = .ok () := by
  unfold renameRawVideosAux at h
  split at h
  · exact absurd h (by simp)
  · rename_i u hpres
    rw [hpres]

/-- Helper: an immediate re-run of the video renamer after a successful run
either succeeds with an empty change list or fails leaving the state exactly
as the first run left it. -/
theorem renameRawVideos_second_run (subjectName : Str) (sp : Path)
    (fs fs1 : FS) (tr : List (Path × Path))
    (h : renameRawVideosOfSession subjectName fs sp = .ok (fs1, tr)) :
    renameRawVideosOfSession subjectName fs1 sp = .ok (fs1, []) ∨
    ∃ e, renameRawVideosOfSession subjectName fs1 sp = .error (e, fs1) := by
  unfold renameRawVideosOfSession at h ⊢
  have h1000 : (1000 : Nat) = 999 + 1 := rfl
  rw [h1000] at h ⊢
  have hpres := renameVideosAux_ok_prescreen subjectName sp 999 fs fs1 tr h
  have hinv := renameVideosAux_ok_no_repairable subjectName sp (999 + 1) fs fs1 tr h
  cases hvv : validateRawVideosOfSession fs1 sp with
  | ok v =>
    left
    unfold renameRawVideosAux
    simp [hpres, hvv]
  | error e =>
    right
    have hne := hinv e hvv
    refine ⟨e, ?_⟩
    unfold renameRawVideosAux
    simp [hpres, hvv, hne.1, hne.2]

/-- C8: both rename passes are idempotent.  After a successful extra-file
pass on a well-formed tree, a second extra-file pass returns the same state
with zero renames.  After a successful video pass, a second video pass
performs zero renames: it either returns the same state with an empty change
list or raises with the state exactly as the first run left it.  On an
already-canonical tree the video rename returns the unchanged state with an
empty list of changes. -/
theorem rename_passes_are_idempotent
    (fs fs1 fv fv1 fc : FS) (sp : Path) (wl exts : List Str) (subjectName : Str)
    (tr trv : List (Path × Path)) (v : List Path)
    (hwf : WFfiles fs)
    (hx : renameExtraFilesInSession fs sp wl exts = .ok (fs1, tr))
    (hv : renameRawVideosOfSession subjectName fv sp = .ok (fv1, trv))
    (hpres : prescreenFolderName (nameOf sp) subjectName = .ok ())
    (hval : validateRawVideosOfSession fc sp = .ok v) :
    renameExtraFilesInSession fs1 sp wl exts = .ok (fs1, []) ∧
    (renameRawVideosOfSession subjectName fv1 sp = .ok (fv1, []) ∨
      ∃ e, renameRawVideosOfSession subjectName fv1 sp = .error (e, fv1)) ∧
    renameRawVideosOfSession subjectName fc sp = .ok (fc, []) := by
  refine ⟨renameExtraFilesInSession_idempotent fs sp wl exts fs1 tr hwf hx,
    renameRawVideos_second_run subjectName sp fv fv1 trv hv, ?_⟩
  unfold renameRawVideosOfSession
  have h1000 : (1000 : Nat) = 999 + 1 := rfl
  rw [h1000]
  unfold renameRawVideosAux
  simp [hpres, hval]

/-- Witness for C8 on concrete trees: the extra-file pass prefixes the one
root file and a second pass is a no-op; the canonical video tree passes
validation and both video runs return it unchanged with zero renames. -/
theorem rename_passes_are_idempotent_witness :
    WFfiles exIdExtraFs ∧
    (renameExtraFilesInSession exIdExtraFsAfter exIdSp [S "comment.txt"] [S ".txt"] =
        .ok (exIdExtraFsAfter, []) ∧
      (renameRawVideosOfSession (S "M011") exIdVideoFs exIdSp = .ok (exIdVideoFs, []) ∨
        ∃ e, renameRawVideosOfSession (S "M011") exIdVideoFs exIdSp =
          .error (e, exIdVideoFs)) ∧
      renameRawVideosOfSession (S "M011") exIdVideoFs exIdSp = .ok (exIdVideoFs, [])) :=
  ⟨by decide,
    rename_passes_are_idempotent exIdExtraFs exIdExtraFsAfter exIdVideoFs exIdVideoFs
      exIdVideoFs exIdSp [S "comment.txt"] [S ".txt"] (S "M011")
      [(exIdSp ++ [S "comment.txt"], exIdSp ++ [S "M011_2023_04_04_16_00_comment.txt"])] []
      [exIdSp ++ [exIdCamDir, S "M011_2023_04_04_16_00_camera_0.avi"],
       exIdSp ++ [exIdCamDir, S "metadata.csv"]]
      (by decide) (by rfl) (by rfl) (by rfl) (by rfl)⟩

/-- C3, amended: a preflight failure aborts before the failing kind's own
copy runs, so when the first included kind's preflight fails (renames off),
the whole upload aborts with the filesystem, including the destination,
byte-for-byte unchanged.  (The original claim is refuted separately: a later
kind's preflight failure leaves the earlier kinds' copies in place.) -/
theorem first_preflight_failure_leaves_destination_unchanged
    (vb ve vv : Validator) (fs : FS) (sp : Path) (subjectName : Str)
    (localRoot remoteRoot : Path) (incE incV incX : Bool) (wl exts : List Str)
    (m : List Path × List Path × List Path) (e : PyErr)
    (hv : validateRawSession vb ve vv true incE incV fs sp = .ok m)
    (hr : validateSessionIsRawAndInRoot sp localRoot = .ok ())
    (hpre : prepareCopying vb fs sp localRoot remoteRoot "error_if_different" = .error e) :
    uploadRawSession vb ve vv fs sp subjectName localRoot remoteRoot
      true incE incV incX wl exts false false = .error (e, fs) := by
  unfold uploadRawSession uploadRawBehavioralData
  simp [hv, hr, hpre]

/-- C3 counterexample: with behavior and ephys both included, a failing ephys
preflight surfaces only after the behavioral copy has already written the
destination, which therefore is not byte-for-byte unchanged. -/
theorem later_preflight_failure_after_earlier_copy :
    uploadRawSession exUpVb exUpVe exUpVv exUpFs exUpSp (S "subj")
      exUpLocalRoot exUpRemoteRoot true true false false [] [] false false =
      .error (⟨"FileExistsError", "File already exists and is different: ",
        [S "remote", S "raw", S "ses", S "probe.bin"]⟩, exUpFsMid) ∧
    exUpFsMid.getFile [S "remote", S "raw", S "ses", S "beh.txt"] = some [1] ∧
    exUpFs.getFile [S "remote", S "raw", S "ses", S "beh.txt"] = none :=
  ⟨by rfl, by rfl, by rfl⟩

/-- Witness for the amended C3 theorem: a conflicting remote behavioral file
makes the first preflight fail and the upload aborts with the filesystem
exactly as it was. -/
theorem first_preflight_failure_leaves_destination_unchanged_witness :
    prepareCopying exUpVb exUpPreFs exUpSp exUpLocalRoot exUpRemoteRoot
      "error_if_different" = .error ⟨"FileExistsError",
        "File already exists and is different: ",
        [S "remote", S "raw", S "ses", S "beh.txt"]⟩ ∧
    uploadRawSession exUpVb exUpVe exUpVv exUpPreFs exUpSp (S "subj")
      exUpLocalRoot exUpRemoteRoot true true false false [] [] false false =
      .error (⟨"FileExistsError", "File already exists and is different: ",
        [S "remote", S "raw", S "ses", S "beh.txt"]⟩, exUpPreFs) :=
  ⟨by rfl,
    first_preflight_failure_leaves_destination_unchanged exUpVb exUpVe exUpVv exUpPreFs
      exUpSp (S "subj") exUpLocalRoot exUpRemoteRoot true false false [] []
      ([[S "local", S "raw", S "ses", S "beh.txt"]],
       [[S "local", S "raw", S "ses", S "probe.bin"]], [])
      ⟨"FileExistsError", "File already exists and is different: ",
        [S "remote", S "raw", S "ses", S "beh.txt"]⟩
      (by rfl) (by rfl) (by rfl)⟩

/-- C6, amended: only the behavioral upload verifies the transfer.  After a
successful behavioral copy it re-validates the destination and raises
`RuntimeError` when the sorted found paths differ from the sorted planned
paths, keeping the copied state as is (no rollback).  (The original claim is
refuted separately: the ephys upload returns the re-validation result without
ever comparing it to the plan.) -/
theorem behavioral_mismatch_raises_without_rollback
    (vb : Validator) (fs fs1 : FS) (sp localRoot remoteRoot remoteSp : Path)
    (srcs dsts found : List Path) (tr : List (Path × Path))
    (h1 : validateSessionIsRawAndInRoot sp localRoot = .ok ())
    (h2 : prepareCopying vb fs sp localRoot remoteRoot "error_if_different" =
      .ok (srcs, dsts))
    (h3 : copyListOfFiles srcs dsts "error_if_different" fs = .ok (fs1, tr))
    (h4 : sourceToDest sp localRoot remoteRoot = .ok remoteSp)
    (h5 : vb fs1 remoteSp = .ok found)
    (h6 : sortPaths found ≠ sortPaths dsts) :
    uploadRawBehavioralData vb fs sp localRoot remoteRoot =
      .error (⟨"RuntimeError",
        "Something went wrong during uploading raw behavioral data for session ", sp⟩,
        fs1) := by
  unfold uploadRawBehavioralData
  simp [h1, h2, h3, h4, h5, h6]

/-- C6 counterexample: the ephys upload copies the recording, then returns
whatever the destination re-validation finds, here the empty list, even
though it differs from the planned destination paths; no integrity error is
raised. -/
theorem ephys_upload_returns_without_comparison :
    uploadRawEphysData exC6Ve exC6Fs exUpSp exUpLocalRoot exUpRemoteRoot =
      .ok (exC6FsMid, []) ∧
    exC6FsMid.getFile [S "remote", S "raw", S "ses", S "probe.bin"] = some [2] ∧
    sortPaths [] ≠ sortPaths [[S "remote", S "raw", S "ses", S "probe.bin"]] :=
  ⟨by rfl, by rfl, by decide⟩

/-- Witness for the amended C6 theorem: the behavioral re-validation finds
nothing on the remote, so the sorted comparison fails and the upload raises
`RuntimeError` while the copied file stays at the destination. -/
theorem behavioral_mismatch_raises_without_rollback_witness :
    uploadRawBehavioralData exC6Vb exC6BFs exUpSp exUpLocalRoot exUpRemoteRoot =
      .error (⟨"RuntimeError",
        "Something went wrong during uploading raw behavioral data for session ",
        exUpSp⟩, exC6BFsMid) ∧
    exC6BFsMid.getFile [S "remote", S "raw", S "ses", S "beh.txt"] = some [1] :=
  ⟨behavioral_mismatch_raises_without_rollback exC6Vb exC6BFs exC6BFsMid exUpSp
      exUpLocalRoot exUpRemoteRoot [S "remote", S "raw", S "ses"]
      [[S "local", S "raw", S "ses", S "beh.txt"]]
      [[S "remote", S "raw", S "ses", S "beh.txt"]] []
      [([S "local", S "raw", S "ses", S "beh.txt"],
        [S "remote", S "raw", S "ses", S "beh.txt"])]
      (by rfl) (by rfl) (by rfl) (by rfl) (by rfl) (by decide),
    by rfl⟩
